import Mathlib

/-!
# Dirt Claude Dojo: a shallow embedding of `cmd/main.go`

The program is three command handlers (`initializeDojo`, `startSession`,
`startLesson`) over two JSON documents and a directory of event files.

Modelling choices.

* The filesystem is an explicit value `FS`: a list of directories and an
  association list of regular files. Paths are lists of components.
* File contents are either bytes that are not a JSON text (`FileData.invalid`)
  or the JSON value the bytes denote (`FileData.doc`). Indentation and the
  escaping of string literals are below this level of abstraction.
* `encoding/json` is modelled on JSON values: the encoders follow the struct
  tags of the source, the decoders follow the store-into-existing-value
  discipline of `json.Unmarshal` (a type mismatch is recorded and decoding goes
  on; `null` resets pointers, slices and maps and is ignored elsewhere; object
  keys are matched case-insensitively; later duplicates are decoded over
  earlier ones, an array element over the slice element already at its index).
  Elements that an earlier, longer array left beyond the length of a slice are
  not kept: their reuse depends on the capacity the slice was grown to.
* `json.MarshalIndent` fails on a `float64` that is NaN or infinite; the
  `save` functions and `logEvent` then write nothing, as in the source.
* A `float64` is an IEEE 754 binary64 value. A number decoded into an
  `interface{}` is the literal rounded to the nearest `float64`, ties to even
  (`strconv.ParseFloat`), with a range error beyond the largest finite value;
  a `float64` is written as the shortest decimal that reads back as the same
  value (`strconv.AppendFloat` with precision -1), without exponent when its
  magnitude is below 1e21 and it has no fraction digits.
* Go `int` is taken to be 64 bits wide: values are `Int`, the decoder rejects
  numbers out of range and `++` wraps.
* Go strings are modelled by `String` (valid Unicode text).
* A nil slice or map is `none`, a non-nil one is `some`. A non-nil map is an
  association list kept in strictly increasing key order, which is also the
  order in which `encoding/json` writes map keys.
* Readings of the wall clock and the line typed on standard input are inputs of
  the handlers. Console output is not part of the state.
-/

namespace Dojo

/-! ## Paths and constants -/

abbrev Path := List String

def DojoDir : Path := [".dojo"]
def EventsDir : Path := [".dojo", "events"]
def ProgressFile : Path := [".dojo", "progress.json"]
def ClaudeFile : Path := [".dojo", "claude-integration.json"]

/-! ## Machine integers -/

def minInt : Int := -9223372036854775808
def maxInt : Int := 9223372036854775807

/-- Whether an integer is representable as a Go `int` (64 bits). -/
def fitsInt (n : Int) : Bool := decide (minInt ≤ n) && decide (n ≤ maxInt)

/-- Two's complement wrap-around of a 64-bit signed integer. -/
def wrapInt (n : Int) : Int :=
  (n + 9223372036854775808) % 18446744073709551616 - 9223372036854775808

/-! ## JSON values -/

/-- A JSON number literal. `int neg n` is a literal with neither fraction nor
exponent part: an optional minus sign and the digits of `n`. `dec neg coef exp`
is a literal with a fraction or an exponent part: `coef` is the number written
by the digits of the integer and fraction parts together and `exp` is the
exponent part minus the number of fraction digits, so that the literal denotes
`coef * 10 ^ exp`, negated when `neg`. -/
inductive JNum where
  | int (neg : Bool) (n : Nat)
  | dec (neg : Bool) (coef : Nat) (exp : Int)
  deriving DecidableEq, Repr

inductive Json where
  | null
  | bool (b : Bool)
  | num (x : JNum)
  | str (s : String)
  | arr (xs : List Json)
  | obj (kvs : List (String × Json))
  deriving Repr

/-! ## `float64` -/

/-- An IEEE 754 binary64 value. `fin neg m q` is `m * 2 ^ (q - 1074)`, negated
when `neg`; both zeros are `fin _ 0 0`. -/
inductive F64 where
  | nan
  | inf (neg : Bool)
  | fin (neg : Bool) (m : Nat) (q : Nat)
  deriving DecidableEq, Repr

/-- The representation of a finite value is the one of the format: `m` below
`2 ^ 53`, `q` at most 2045, and `m` at least `2 ^ 52` unless `q = 0` (zero and
the subnormal numbers). -/
def F64.canonical : F64 → Bool
  | .fin _ m q => decide (m < 2 ^ 53) && decide (q ≤ 2045) && (decide (2 ^ 52 ≤ m) || decide (q = 0))
  | _ => true

def F64.finite : F64 → Bool
  | .fin _ _ _ => true
  | _ => false

/-- The integer nearest to `n / d`, ties to even. -/
def roundHalfEven (n d : Nat) : Nat :=
  if 2 * (n % d) < d then n / d
  else if d < 2 * (n % d) then n / d + 1
  else if (n / d) % 2 = 0 then n / d
  else n / d + 1

/-- Numerator of `c * 10 ^ x / 2 ^ (i - 1074)` as a fraction of naturals. -/
def scaledNum (c : Nat) (x : Int) (i : Nat) : Nat := c * 10 ^ x.toNat * 2 ^ (1074 - i)
/-- Denominator of `c * 10 ^ x / 2 ^ (i - 1074)` as a fraction of naturals. -/
def scaledDen (x : Int) (i : Nat) : Nat := 10 ^ (-x).toNat * 2 ^ (i - 1074)

/-- Search for the binary exponent, from `i` upwards: the first at which the
magnitude, rounded to an integer number of units `2 ^ (i - 1074)`, is below
`2 ^ 53`. -/
def parseMagFrom (c : Nat) (x : Int) : Nat → Nat → Option (Nat × Nat)
  | 0, _ => none
  | fuel + 1, i =>
    if roundHalfEven (scaledNum c x i) (scaledDen x i) < 2 ^ 53 then
      some (roundHalfEven (scaledNum c x i) (scaledDen x i), i)
    else parseMagFrom c x fuel (i + 1)

/-- The `float64` magnitude nearest to `c * 10 ^ x`, ties to even; `none` when
the magnitude rounds beyond the largest finite value. -/
def parseMag (c : Nat) (x : Int) : Option (Nat × Nat) := parseMagFrom c x 2046 0

/-- Result of `strconv.ParseFloat(s, 64)` on a number literal; `none` is the
range error. -/
def parseFloat : JNum → Option F64
  | .int neg n => (parseMag n 0).map fun r => .fin neg r.1 r.2
  | .dec neg c x => (parseMag c x).map fun r => .fin neg r.1 r.2

/-- The integer part of `m * 2 ^ (q - 1074) / 10 ^ x`. -/
def decDigits (m q : Nat) (x : Int) : Nat :=
  (m * 2 ^ (q - 1074) * 10 ^ (-x).toNat) / (2 ^ (1074 - q) * 10 ^ x.toNat)

/-- The integer nearest to `m * 2 ^ (q - 1074) / 10 ^ x`, ties to even. -/
def decRound (m q : Nat) (x : Int) : Nat :=
  roundHalfEven (m * 2 ^ (q - 1074) * 10 ^ (-x).toNat) (2 ^ (1074 - q) * 10 ^ x.toNat)

/-- Search, from `k` downwards, for the largest `k` with
`10 ^ k ≤ m * 2 ^ (q - 1074)`. -/
def log10From (m q : Nat) : Nat → Int → Int
  | 0, k => k
  | fuel + 1, k => if 1 ≤ decDigits m q k then k else log10From m q fuel (k - 1)

/-- Removal of trailing zero digits. -/
def stripZeros : Nat → Nat → Int → Nat × Int
  | 0, d, x => (d, x)
  | fuel + 1, d, x => if d % 10 = 0 ∧ d ≠ 0 then stripZeros fuel (d / 10) (x + 1) else (d, x)

/-- The literal written for the digits `d` at decimal exponent `x`: without
exponent and fraction when the magnitude is below 1e21 and no digit is after
the decimal point. -/
def floatLit (neg : Bool) (m q : Nat) (d : Nat) (x : Int) : JNum :=
  let r := stripZeros 20 d x
  if 0 ≤ r.2 ∧ m * 2 ^ (q - 1074) < 10 ^ 21 * 2 ^ (1074 - q) then .int neg (r.1 * 10 ^ r.2.toNat)
  else .dec neg r.1 r.2

/-- The literal with `n + 1` significant digits nearest to the value, when one
with that many digits reads back as the value. -/
def shortestAt (neg : Bool) (m q : Nat) (k : Int) (n : Nat) : Option JNum :=
  let x := k - n
  let lo := floatLit neg m q (decDigits m q x) x
  let hi := floatLit neg m q (decDigits m q x + 1) x
  let near := floatLit neg m q (decRound m q x) x
  if parseFloat lo = some (.fin neg m q) ∧ parseFloat hi = some (.fin neg m q) then some near
  else if parseFloat lo = some (.fin neg m q) then some lo
  else if parseFloat hi = some (.fin neg m q) then some hi
  else none

/-- The exact decimal expansion of a finite value. -/
def exactLit (neg : Bool) (m q : Nat) : JNum :=
  if 1074 ≤ q then .dec neg (m * 2 ^ (q - 1074)) 0
  else .dec neg (m * 5 ^ (1074 - q)) (-((1074 - q : Nat) : Int))

/-- The first result of `f` along a list. -/
def firstSome {α β : Type} (f : α → Option β) : List α → Option β
  | [] => none
  | a :: r => match f a with
    | some b => some b
    | none => firstSome f r

/-- The literal `encoding/json` writes for a `float64`: the shortest digits
that read back as the value, at most 17 being needed (the exact expansion
stands in where the search ends without a result); `none` for NaN and the
infinities, which `json.Marshal` rejects. -/
def formatFloat : F64 → Option JNum
  | .nan => none
  | .inf _ => none
  | .fin neg m q =>
    if m = 0 then some (.int neg 0)
    else
      some ((firstSome (shortestAt neg m q (log10From m q 640 308)) (List.range 17)).getD
        (exactLit neg m q))

/-! ## Dynamically typed values -/

/-- A dynamically typed Go value (`interface{}`), restricted to the dynamic
types that matter for the event log: the six that `json.Unmarshal` produces
(nil, `bool`, `float64`, `string`, `[]interface{}`, `map[string]interface{}`)
and `int`. `nilSlice` and `nilMap` are the nil values of the slice and map
types; `slice` and `map` are the non-nil ones. -/
inductive GoAny where
  | nil
  | bool (b : Bool)
  | int (n : Int)
  | float64 (x : F64)
  | str (s : String)
  | nilSlice
  | slice (xs : List GoAny)
  | nilMap
  | map (kvs : List (String × GoAny))
  deriving Repr

/-! ## Go maps with string keys -/

/-- Byte-wise order on keys (the order in which map keys are written). -/
def keyLt (a b : String) : Bool := decide (a.data < b.data)

/-- Map lookup `m[k]` on a non-nil map. -/
def mapGet {V : Type} : List (String × V) → String → Option V
  | [], _ => none
  | (k', v') :: r, k => if k = k' then some v' else mapGet r k

/-- Map assignment `m[k] = v` on a non-nil map. -/
def mapSet {V : Type} : List (String × V) → String → V → List (String × V)
  | [], k, v => [(k, v)]
  | (k', v') :: r, k, v =>
    if k = k' then (k, v) :: r
    else if keyLt k k' then (k, v) :: (k', v') :: r
    else (k', v') :: mapSet r k v

/-- A map literal: the entries are assigned in order to an empty map. -/
def mapLit {V : Type} (kvs : List (String × V)) : List (String × V) :=
  kvs.foldl (fun m kv => mapSet m kv.1 kv.2) []

/-- Lookup `m[k]` on a possibly nil map (a nil map has no keys). -/
def mapIndex {V : Type} (m : Option (List (String × V))) (k : String) : Option V :=
  match m with
  | none => none
  | some kvs => mapGet kvs k

/-! ## The documents -/

structure ProgressUser where
  Name : String
  StartDate : String
  CurrentLevel : String
  TotalSessions : Int
  StreakDays : Int
  deriving DecidableEq, Repr

structure Foundation where
  Status : String
  LessonsCompleted : Int
  TotalLessons : Int
  MasteryScore : Int
  deriving DecidableEq, Repr

structure ProgressLearningStyle where
  PreferredPace : String
  StruggleAreas : Option (List String)
  StrengthAreas : Option (List String)
  deriving DecidableEq, Repr

structure Progress where
  User : ProgressUser
  Foundations : Option (List (String × Foundation))
  Achievements : Option (List String)
  LastSession : Option String
  LearningStyle : ProgressLearningStyle
  deriving DecidableEq, Repr

structure ClaudeSession where
  Active : Bool
  StartTime : Option String
  CurrentLesson : Option String
  CurrentTopic : Option String
  LearningMode : String
  deriving DecidableEq, Repr

structure ClaudeUserState where
  StrugglingWith : Option String
  LastError : Option String
  ConsecutiveFailures : Int
  NeedsEncouragement : Bool
  AskForHelpCount : Int
  deriving DecidableEq, Repr

structure ClaudeBehavior where
  TeachingStyle : String
  InterventionThreshold : Int
  LastHintTime : Option String
  HintLevel : Int
  deriving DecidableEq, Repr

structure ClaudeLessonContext where
  Topic : Option String
  Objective : Option String
  CurrentStep : Int
  TotalSteps : Int
  KeyConcepts : Option (List String)
  deriving DecidableEq, Repr

structure ClaudeIntegration where
  Session : ClaudeSession
  UserState : ClaudeUserState
  ClaudeBehavior : ClaudeBehavior
  LessonContext : ClaudeLessonContext
  EventLog : Option (List (Option (List (String × GoAny))))
  deriving Repr

/-! ### Zero values -/

def ProgressUser.zero : ProgressUser := ⟨"", "", "", 0, 0⟩
def Foundation.zero : Foundation := ⟨"", 0, 0, 0⟩
def ProgressLearningStyle.zero : ProgressLearningStyle := ⟨"", none, none⟩
def Progress.zero : Progress :=
  ⟨ProgressUser.zero, none, none, none, ProgressLearningStyle.zero⟩
def ClaudeSession.zero : ClaudeSession := ⟨false, none, none, none, ""⟩
def ClaudeUserState.zero : ClaudeUserState := ⟨none, none, 0, false, 0⟩
def ClaudeBehavior.zero : ClaudeBehavior := ⟨"", 0, none, 0⟩
def ClaudeLessonContext.zero : ClaudeLessonContext := ⟨none, none, 0, 0, none⟩
def ClaudeIntegration.zero : ClaudeIntegration :=
  ⟨ClaudeSession.zero, ClaudeUserState.zero, ClaudeBehavior.zero,
    ClaudeLessonContext.zero, none⟩

/-! ## `json.Marshal` -/

/-- Encoding of an `int`. -/
def marshalInt (n : Int) : Json := .num (.int (decide (n < 0)) n.natAbs)

mutual
/-- Encoding of a dynamically typed value held in an `interface{}`; `none` is
the error `json.Marshal` returns for an unsupported value. -/
def marshalAny : GoAny → Option Json
  | .nil => some .null
  | .bool b => some (.bool b)
  | .int n => some (marshalInt n)
  | .float64 x =>
    match formatFloat x with
    | some lit => some (.num lit)
    | none => none
  | .str s => some (.str s)
  | .nilSlice => some .null
  | .slice xs =>
    match marshalAnyList xs with
    | some js => some (.arr js)
    | none => none
  | .nilMap => some .null
  | .map kvs =>
    match marshalAnyFields kvs with
    | some fields => some (.obj fields)
    | none => none
def marshalAnyList : List GoAny → Option (List Json)
  | [] => some []
  | x :: xs =>
    match marshalAny x, marshalAnyList xs with
    | some j, some js => some (j :: js)
    | _, _ => none
def marshalAnyFields : List (String × GoAny) → Option (List (String × Json))
  | [] => some []
  | (k, v) :: r =>
    match marshalAny v, marshalAnyFields r with
    | some j, some fields => some ((k, j) :: fields)
    | _, _ => none
end

/-- Encoding of a `*string`. -/
def marshalStringPtr : Option String → Json
  | none => .null
  | some s => .str s

/-- Encoding of a `[]string`. -/
def marshalStrings : Option (List String) → Json
  | none => .null
  | some xs => .arr (xs.map Json.str)

def marshalUser (u : ProgressUser) : Json :=
  .obj [("name", .str u.Name), ("start_date", .str u.StartDate),
    ("current_level", .str u.CurrentLevel),
    ("total_sessions", marshalInt u.TotalSessions),
    ("streak_days", marshalInt u.StreakDays)]

def marshalFoundation (f : Foundation) : Json :=
  .obj [("status", .str f.Status),
    ("lessons_completed", marshalInt f.LessonsCompleted),
    ("total_lessons", marshalInt f.TotalLessons),
    ("mastery_score", marshalInt f.MasteryScore)]

def marshalFoundations : Option (List (String × Foundation)) → Json
  | none => .null
  | some m => .obj (m.map fun kv => (kv.1, marshalFoundation kv.2))

def marshalLearningStyle (l : ProgressLearningStyle) : Json :=
  .obj [("preferred_pace", .str l.PreferredPace),
    ("struggle_areas", marshalStrings l.StruggleAreas),
    ("strength_areas", marshalStrings l.StrengthAreas)]

def marshalProgress (p : Progress) : Json :=
  .obj [("user", marshalUser p.User),
    ("foundations", marshalFoundations p.Foundations),
    ("achievements", marshalStrings p.Achievements),
    ("last_session", marshalStringPtr p.LastSession),
    ("learning_style", marshalLearningStyle p.LearningStyle)]

def marshalSession (s : ClaudeSession) : Json :=
  .obj [("active", .bool s.Active), ("start_time", marshalStringPtr s.StartTime),
    ("current_lesson", marshalStringPtr s.CurrentLesson),
    ("current_topic", marshalStringPtr s.CurrentTopic),
    ("learning_mode", .str s.LearningMode)]

def marshalUserState (u : ClaudeUserState) : Json :=
  .obj [("struggling_with", marshalStringPtr u.StrugglingWith),
    ("last_error", marshalStringPtr u.LastError),
    ("consecutive_failures", marshalInt u.ConsecutiveFailures),
    ("needs_encouragement", .bool u.NeedsEncouragement),
    ("ask_for_help_count", marshalInt u.AskForHelpCount)]

def marshalBehavior (b : ClaudeBehavior) : Json :=
  .obj [("teaching_style", .str b.TeachingStyle),
    ("intervention_threshold", marshalInt b.InterventionThreshold),
    ("last_hint_time", marshalStringPtr b.LastHintTime),
    ("hint_level", marshalInt b.HintLevel)]

def marshalLessonContext (l : ClaudeLessonContext) : Json :=
  .obj [("topic", marshalStringPtr l.Topic), ("objective", marshalStringPtr l.Objective),
    ("current_step", marshalInt l.CurrentStep), ("total_steps", marshalInt l.TotalSteps),
    ("key_concepts", marshalStrings l.KeyConcepts)]

/-- Encoding of a `map[string]interface{}`. -/
def marshalAnyMap : Option (List (String × GoAny)) → Option Json
  | none => some .null
  | some m =>
    match marshalAnyFields m with
    | some fields => some (.obj fields)
    | none => none

/-- Encoding of the elements of a `[]map[string]interface{}`. -/
def marshalEntries : List (Option (List (String × GoAny))) → Option (List Json)
  | [] => some []
  | m :: ms =>
    match marshalAnyMap m, marshalEntries ms with
    | some j, some js => some (j :: js)
    | _, _ => none

/-- Encoding of a `[]map[string]interface{}`. -/
def marshalEventLog : Option (List (Option (List (String × GoAny)))) → Option Json
  | none => some .null
  | some ms =>
    match marshalEntries ms with
    | some js => some (.arr js)
    | none => none

/-- Encoding of the assistant-integration document; `none` is the error
`json.MarshalIndent` returns when the event log holds an unsupported value. -/
def marshalClaude (c : ClaudeIntegration) : Option Json :=
  match marshalEventLog c.EventLog with
  | none => none
  | some eventLog =>
    some (.obj [("session", marshalSession c.Session),
      ("user_state", marshalUserState c.UserState),
      ("claude_behavior", marshalBehavior c.ClaudeBehavior),
      ("lesson_context", marshalLessonContext c.LessonContext),
      ("event_log", eventLog)])

/-! ## `json.Unmarshal`

Every decoder takes the current value of its target and returns the new value
together with a flag telling whether a type mismatch was recorded. -/

/-- Case folding of one character of an object key: lower-case ASCII letters
fold to upper case, and so do the two other characters that simple case
folding relates to an ASCII letter, U+017F (long s) and U+212A (Kelvin sign).
Any other character is left as it is: it matches no character of a field
name. -/
def foldChar (c : Char) : Char :=
  if 'a' ≤ c ∧ c ≤ 'z' then Char.ofNat (c.toNat - 32)
  else if c.toNat = 0x017F then 'S'
  else if c.toNat = 0x212A then 'K'
  else c

/-- The folded form of an object key; two names match when their folded forms
are equal. -/
def foldName (s : String) : String := String.mk (s.data.map foldChar)

def storeString (cur : String) : Json → String × Bool
  | .str s => (s, false)
  | .null => (cur, false)
  | _ => (cur, true)

/-- The integer an integer literal denotes. -/
def intValue (neg : Bool) (n : Nat) : Int := if neg then -(n : Int) else n

/-- Decoding into an `int`: the literal must have neither fraction nor exponent
part (`strconv.ParseInt`) and be in range. -/
def storeInt (cur : Int) : Json → Int × Bool
  | .num (.int neg n) => if fitsInt (intValue neg n) then (intValue neg n, false) else (cur, true)
  | .null => (cur, false)
  | _ => (cur, true)

def storeBool (cur : Bool) : Json → Bool × Bool
  | .bool b => (b, false)
  | .null => (cur, false)
  | _ => (cur, true)

/-- Decoding into a `*string`: `null` resets the pointer; for any other value a
nil pointer is first made to point to a fresh empty string. -/
def storeStringPtr (cur : Option String) : Json → Option String × Bool
  | .null => (none, false)
  | .str s => (some s, false)
  | _ => (some (cur.getD ""), true)

/-- Decoding of the elements of a JSON array into a slice: an element is
decoded into the slice element already at its index, or into a zero element
beyond the old length. -/
def storeElems {α : Type} (store : α → Json → α × Bool) (zero : α) :
    List α → List Json → List (α × Bool)
  | _, [] => []
  | [], j :: js => store zero j :: storeElems store zero [] js
  | a :: as, j :: js => store a j :: storeElems store zero as js

/-- Decoding into a `[]string`. -/
def storeStrings (cur : Option (List String)) : Json → Option (List String) × Bool
  | .null => (none, false)
  | .arr xs =>
    ((some ((storeElems storeString "" (cur.getD []) xs).map fun r => r.1)),
      (storeElems storeString "" (cur.getD []) xs).any fun r => r.2)
  | _ => (cur, true)

mutual
/-- Decoding into an `interface{}`, with the flag of a recorded error. A number
is converted with `strconv.ParseFloat`; on a range error the error is recorded
and the value stays nil (`convertNumber` returns a nil value with the
error). -/
def unmarshalAny : Json → GoAny × Bool
  | .null => (.nil, false)
  | .bool b => (.bool b, false)
  | .num x =>
    match parseFloat x with
    | some f => (.float64 f, false)
    | none => (.nil, true)
  | .str s => (.str s, false)
  | .arr xs => (.slice (unmarshalAnyList xs).1, (unmarshalAnyList xs).2)
  | .obj kvs => (.map (mapLit (unmarshalAnyFields kvs).1), (unmarshalAnyFields kvs).2)
def unmarshalAnyList : List Json → List GoAny × Bool
  | [] => ([], false)
  | x :: xs =>
    ((unmarshalAny x).1 :: (unmarshalAnyList xs).1,
      (unmarshalAny x).2 || (unmarshalAnyList xs).2)
def unmarshalAnyFields : List (String × Json) → List (String × GoAny) × Bool
  | [] => ([], false)
  | (k, v) :: r =>
    ((k, (unmarshalAny v).1) :: (unmarshalAnyFields r).1,
      (unmarshalAny v).2 || (unmarshalAnyFields r).2)
end

/-- Decoding into a `map[string]interface{}`: the entries of an object are
assigned, in order, to the existing map (a new one when it is nil). -/
def storeAnyMap (cur : Option (List (String × GoAny))) :
    Json → Option (List (String × GoAny)) × Bool
  | .null => (none, false)
  | .obj kvs =>
    (some ((unmarshalAnyFields kvs).1.foldl (fun m kv => mapSet m kv.1 kv.2) (cur.getD [])),
      (unmarshalAnyFields kvs).2)
  | _ => (cur, true)

/-- Decoding into a `[]map[string]interface{}`. -/
def storeEventLog (cur : Option (List (Option (List (String × GoAny))))) :
    Json → Option (List (Option (List (String × GoAny)))) × Bool
  | .null => (none, false)
  | .arr xs =>
    ((some ((storeElems storeAnyMap none (cur.getD []) xs).map fun r => r.1)),
      (storeElems storeAnyMap none (cur.getD []) xs).any fun r => r.2)
  | _ => (cur, true)

def stepUser (acc : ProgressUser × Bool) (kv : String × Json) : ProgressUser × Bool :=
  match foldName kv.1 with
  | "NAME" =>
    let r := storeString acc.1.Name kv.2
    ({ acc.1 with Name := r.1 }, acc.2 || r.2)
  | "START_DATE" =>
    let r := storeString acc.1.StartDate kv.2
    ({ acc.1 with StartDate := r.1 }, acc.2 || r.2)
  | "CURRENT_LEVEL" =>
    let r := storeString acc.1.CurrentLevel kv.2
    ({ acc.1 with CurrentLevel := r.1 }, acc.2 || r.2)
  | "TOTAL_SESSIONS" =>
    let r := storeInt acc.1.TotalSessions kv.2
    ({ acc.1 with TotalSessions := r.1 }, acc.2 || r.2)
  | "STREAK_DAYS" =>
    let r := storeInt acc.1.StreakDays kv.2
    ({ acc.1 with StreakDays := r.1 }, acc.2 || r.2)
  | _ => acc

def storeUser (cur : ProgressUser) : Json → ProgressUser × Bool
  | .obj kvs => kvs.foldl stepUser (cur, false)
  | .null => (cur, false)
  | _ => (cur, true)

def stepFoundation (acc : Foundation × Bool) (kv : String × Json) : Foundation × Bool :=
  match foldName kv.1 with
  | "STATUS" =>
    let r := storeString acc.1.Status kv.2
    ({ acc.1 with Status := r.1 }, acc.2 || r.2)
  | "LESSONS_COMPLETED" =>
    let r := storeInt acc.1.LessonsCompleted kv.2
    ({ acc.1 with LessonsCompleted := r.1 }, acc.2 || r.2)
  | "TOTAL_LESSONS" =>
    let r := storeInt acc.1.TotalLessons kv.2
    ({ acc.1 with TotalLessons := r.1 }, acc.2 || r.2)
  | "MASTERY_SCORE" =>
    let r := storeInt acc.1.MasteryScore kv.2
    ({ acc.1 with MasteryScore := r.1 }, acc.2 || r.2)
  | _ => acc

def storeFoundation (cur : Foundation) : Json → Foundation × Bool
  | .obj kvs => kvs.foldl stepFoundation (cur, false)
  | .null => (cur, false)
  | _ => (cur, true)

/-- One entry of a JSON object decoded into the foundations map: the value is
decoded into a fresh zero element, which is then assigned under the key. -/
def stepFoundations (acc : List (String × Foundation) × Bool) (kv : String × Json) :
    List (String × Foundation) × Bool :=
  let r := storeFoundation Foundation.zero kv.2
  (mapSet acc.1 kv.1 r.1, acc.2 || r.2)

def storeFoundations (cur : Option (List (String × Foundation))) :
    Json → Option (List (String × Foundation)) × Bool
  | .null => (none, false)
  | .obj kvs =>
    let r := kvs.foldl stepFoundations (cur.getD [], false)
    (some r.1, r.2)
  | _ => (cur, true)

def stepLearningStyle (acc : ProgressLearningStyle × Bool) (kv : String × Json) :
    ProgressLearningStyle × Bool :=
  match foldName kv.1 with
  | "PREFERRED_PACE" =>
    let r := storeString acc.1.PreferredPace kv.2
    ({ acc.1 with PreferredPace := r.1 }, acc.2 || r.2)
  | "STRUGGLE_AREAS" =>
    let r := storeStrings acc.1.StruggleAreas kv.2
    ({ acc.1 with StruggleAreas := r.1 }, acc.2 || r.2)
  | "STRENGTH_AREAS" =>
    let r := storeStrings acc.1.StrengthAreas kv.2
    ({ acc.1 with StrengthAreas := r.1 }, acc.2 || r.2)
  | _ => acc

def storeLearningStyle (cur : ProgressLearningStyle) : Json → ProgressLearningStyle × Bool
  | .obj kvs => kvs.foldl stepLearningStyle (cur, false)
  | .null => (cur, false)
  | _ => (cur, true)

def stepProgress (acc : Progress × Bool) (kv : String × Json) : Progress × Bool :=
  match foldName kv.1 with
  | "USER" =>
    let r := storeUser acc.1.User kv.2
    ({ acc.1 with User := r.1 }, acc.2 || r.2)
  | "FOUNDATIONS" =>
    let r := storeFoundations acc.1.Foundations kv.2
    ({ acc.1 with Foundations := r.1 }, acc.2 || r.2)
  | "ACHIEVEMENTS" =>
    let r := storeStrings acc.1.Achievements kv.2
    ({ acc.1 with Achievements := r.1 }, acc.2 || r.2)
  | "LAST_SESSION" =>
    let r := storeStringPtr acc.1.LastSession kv.2
    ({ acc.1 with LastSession := r.1 }, acc.2 || r.2)
  | "LEARNING_STYLE" =>
    let r := storeLearningStyle acc.1.LearningStyle kv.2
    ({ acc.1 with LearningStyle := r.1 }, acc.2 || r.2)
  | _ => acc

def storeProgress (cur : Progress) : Json → Progress × Bool
  | .obj kvs => kvs.foldl stepProgress (cur, false)
  | .null => (cur, false)
  | _ => (cur, true)

def stepSession (acc : ClaudeSession × Bool) (kv : String × Json) : ClaudeSession × Bool :=
  match foldName kv.1 with
  | "ACTIVE" =>
    let r := storeBool acc.1.Active kv.2
    ({ acc.1 with Active := r.1 }, acc.2 || r.2)
  | "START_TIME" =>
    let r := storeStringPtr acc.1.StartTime kv.2
    ({ acc.1 with StartTime := r.1 }, acc.2 || r.2)
  | "CURRENT_LESSON" =>
    let r := storeStringPtr acc.1.CurrentLesson kv.2
    ({ acc.1 with CurrentLesson := r.1 }, acc.2 || r.2)
  | "CURRENT_TOPIC" =>
    let r := storeStringPtr acc.1.CurrentTopic kv.2
    ({ acc.1 with CurrentTopic := r.1 }, acc.2 || r.2)
  | "LEARNING_MODE" =>
    let r := storeString acc.1.LearningMode kv.2
    ({ acc.1 with LearningMode := r.1 }, acc.2 || r.2)
  | _ => acc

def storeSession (cur : ClaudeSession) : Json → ClaudeSession × Bool
  | .obj kvs => kvs.foldl stepSession (cur, false)
  | .null => (cur, false)
  | _ => (cur, true)

def stepUserState (acc : ClaudeUserState × Bool) (kv : String × Json) :
    ClaudeUserState × Bool :=
  match foldName kv.1 with
  | "STRUGGLING_WITH" =>
    let r := storeStringPtr acc.1.StrugglingWith kv.2
    ({ acc.1 with StrugglingWith := r.1 }, acc.2 || r.2)
  | "LAST_ERROR" =>
    let r := storeStringPtr acc.1.LastError kv.2
    ({ acc.1 with LastError := r.1 }, acc.2 || r.2)
  | "CONSECUTIVE_FAILURES" =>
    let r := storeInt acc.1.ConsecutiveFailures kv.2
    ({ acc.1 with ConsecutiveFailures := r.1 }, acc.2 || r.2)
  | "NEEDS_ENCOURAGEMENT" =>
    let r := storeBool acc.1.NeedsEncouragement kv.2
    ({ acc.1 with NeedsEncouragement := r.1 }, acc.2 || r.2)
  | "ASK_FOR_HELP_COUNT" =>
    let r := storeInt acc.1.AskForHelpCount kv.2
    ({ acc.1 with AskForHelpCount := r.1 }, acc.2 || r.2)
  | _ => acc

def storeUserState (cur : ClaudeUserState) : Json → ClaudeUserState × Bool
  | .obj kvs => kvs.foldl stepUserState (cur, false)
  | .null => (cur, false)
  | _ => (cur, true)

def stepBehavior (acc : ClaudeBehavior × Bool) (kv : String × Json) : ClaudeBehavior × Bool :=
  match foldName kv.1 with
  | "TEACHING_STYLE" =>
    let r := storeString acc.1.TeachingStyle kv.2
    ({ acc.1 with TeachingStyle := r.1 }, acc.2 || r.2)
  | "INTERVENTION_THRESHOLD" =>
    let r := storeInt acc.1.InterventionThreshold kv.2
    ({ acc.1 with InterventionThreshold := r.1 }, acc.2 || r.2)
  | "LAST_HINT_TIME" =>
    let r := storeStringPtr acc.1.LastHintTime kv.2
    ({ acc.1 with LastHintTime := r.1 }, acc.2 || r.2)
  | "HINT_LEVEL" =>
    let r := storeInt acc.1.HintLevel kv.2
    ({ acc.1 with HintLevel := r.1 }, acc.2 || r.2)
  | _ => acc

def storeBehavior (cur : ClaudeBehavior) : Json → ClaudeBehavior × Bool
  | .obj kvs => kvs.foldl stepBehavior (cur, false)
  | .null => (cur, false)
  | _ => (cur, true)

def stepLessonContext (acc : ClaudeLessonContext × Bool) (kv : String × Json) :
    ClaudeLessonContext × Bool :=
  match foldName kv.1 with
  | "TOPIC" =>
    let r := storeStringPtr acc.1.Topic kv.2
    ({ acc.1 with Topic := r.1 }, acc.2 || r.2)
  | "OBJECTIVE" =>
    let r := storeStringPtr acc.1.Objective kv.2
    ({ acc.1 with Objective := r.1 }, acc.2 || r.2)
  | "CURRENT_STEP" =>
    let r := storeInt acc.1.CurrentStep kv.2
    ({ acc.1 with CurrentStep := r.1 }, acc.2 || r.2)
  | "TOTAL_STEPS" =>
    let r := storeInt acc.1.TotalSteps kv.2
    ({ acc.1 with TotalSteps := r.1 }, acc.2 || r.2)
  | "KEY_CONCEPTS" =>
    let r := storeStrings acc.1.KeyConcepts kv.2
    ({ acc.1 with KeyConcepts := r.1 }, acc.2 || r.2)
  | _ => acc

def storeLessonContext (cur : ClaudeLessonContext) : Json → ClaudeLessonContext × Bool
  | .obj kvs => kvs.foldl stepLessonContext (cur, false)
  | .null => (cur, false)
  | _ => (cur, true)

def stepClaude (acc : ClaudeIntegration × Bool) (kv : String × Json) :
    ClaudeIntegration × Bool :=
  match foldName kv.1 with
  | "SESSION" =>
    let r := storeSession acc.1.Session kv.2
    ({ acc.1 with Session := r.1 }, acc.2 || r.2)
  | "USER_STATE" =>
    let r := storeUserState acc.1.UserState kv.2
    ({ acc.1 with UserState := r.1 }, acc.2 || r.2)
  | "CLAUDE_BEHAVIOR" =>
    let r := storeBehavior acc.1.ClaudeBehavior kv.2
    ({ acc.1 with ClaudeBehavior := r.1 }, acc.2 || r.2)
  | "LESSON_CONTEXT" =>
    let r := storeLessonContext acc.1.LessonContext kv.2
    ({ acc.1 with LessonContext := r.1 }, acc.2 || r.2)
  | "EVENT_LOG" =>
    let r := storeEventLog acc.1.EventLog kv.2
    ({ acc.1 with EventLog := r.1 }, acc.2 || r.2)
  | _ => acc

def storeClaude (cur : ClaudeIntegration) : Json → ClaudeIntegration × Bool
  | .obj kvs => kvs.foldl stepClaude (cur, false)
  | .null => (cur, false)
  | _ => (cur, true)

/-! ## The filesystem -/

/-- Contents of a regular file: bytes that are not a JSON text, or the JSON
value the bytes denote. -/
inductive FileData where
  | invalid (bytes : String)
  | doc (j : Json)
  deriving Repr

structure FS where
  dirs : List Path
  files : List (Path × FileData)
  deriving Repr

/-- The directory the program is started in, with nothing in it. -/
def FS.empty : FS := ⟨[], []⟩

def lookupFile : List (Path × FileData) → Path → Option FileData
  | [], _ => none
  | (q, d) :: r, p => if p = q then some d else lookupFile r p

def setFile : List (Path × FileData) → Path → FileData → List (Path × FileData)
  | [], p, d => [(p, d)]
  | (q, e) :: r, p, d => if p = q then (q, d) :: r else (q, e) :: setFile r p d

/-- Contents of a regular file, as `os.ReadFile` returns them; `none` is an error. -/
def FS.ReadFile (fs : FS) (p : Path) : Option FileData := lookupFile fs.files p

def FS.isDir (fs : FS) (p : Path) : Bool := p = [] || decide (p ∈ fs.dirs)

def FS.isFile (fs : FS) (p : Path) : Bool := (lookupFile fs.files p).isSome

/-- `os.Stat` succeeds (`err == nil`) when something exists at the path. -/
def FS.Stat (fs : FS) (p : Path) : Bool := fs.isDir p || fs.isFile p

/-- The path itself and its proper ancestors, outermost first. -/
def ancestors (p : Path) : List Path := (List.range p.length).map fun i => p.take (i + 1)

/-- Result of `os.MkdirAll`: `none` is an error (a regular file is in the way),
otherwise the missing directories along the path have been created. -/
def FS.MkdirAll (fs : FS) (p : Path) : Option FS :=
  if (ancestors p).any fs.isFile then none
  else
    some { fs with
      dirs := (ancestors p).foldl (fun ds d => if d ∈ ds then ds else ds ++ [d]) fs.dirs }

/-- Whether `os.WriteFile` can create or truncate the file: the parent
directory exists and the path is not itself a directory. -/
def FS.canWrite (fs : FS) (p : Path) : Bool := fs.isDir p.dropLast && !fs.isDir p

/-- Result of `os.WriteFile`: the new filesystem and whether there was an error. -/
def FS.WriteFile (fs : FS) (p : Path) (d : FileData) : FS × Bool :=
  if fs.canWrite p then ({ fs with files := setFile fs.files p d }, false) else (fs, true)

/-! ## Inputs from the environment -/

/-- A reading of the wall clock (`time.Now()`), given by what `Format` renders
for the three layouts the program uses. -/
structure Time where
  /-- layout `2006-01-02` -/
  date : String
  /-- layout `time.RFC3339` -/
  rfc3339 : String
  /-- layout `20060102-150405` -/
  stamp : String
  deriving DecidableEq, Repr

/-- The space characters of package `fmt`. -/
def isSpace (c : Char) : Bool :=
  let n := c.toNat
  (0x0009 ≤ n && n ≤ 0x000d) || n = 0x0020 || n = 0x0085 || n = 0x00a0 || n = 0x1680 ||
    (0x2000 ≤ n && n ≤ 0x200a) || n = 0x2028 || n = 0x2029 || n = 0x202f || n = 0x205f ||
    n = 0x3000

/-- The string `fmt.Scanln(&name)` stores in `name` (initially empty) when
standard input holds `input`: leading spaces are skipped, a newline or the end
of input at that point stores nothing, otherwise the run of characters up to the
next space is stored. The error `Scanln` returns is ignored by the program. -/
def Scanln (input : String) : String :=
  let rest := input.data.dropWhile fun c => isSpace c && c != '\n'
  String.mk (rest.takeWhile fun c => !isSpace c)

/-- How the process ends. -/
inductive Exit where
  /-- the handler returned -/
  | success
  /-- the argument parser rejected the command line -/
  | usage
  /-- `log.Fatalf` -/
  | fatal
  /-- a nil pointer was dereferenced -/
  | nilDeref
  deriving DecidableEq, Repr

/-- Exit status of the process. -/
def Exit.code : Exit → Nat
  | .success => 0
  | .usage => 1
  | .fatal => 1
  | .nilDeref => 2

/-! ## Stores -/

/-- Result of `json.Unmarshal(data, &progress)` on a zero `progress`: the value
and whether an error is returned. -/
def unmarshalProgress (data : FileData) (progress : Progress) : Progress × Bool :=
  match data with
  | .invalid _ => (progress, true)
  | .doc j => storeProgress progress j

def unmarshalClaude (data : FileData) (claude : ClaudeIntegration) :
    ClaudeIntegration × Bool :=
  match data with
  | .invalid _ => (claude, true)
  | .doc j => storeClaude claude j

def loadProgress (fs : FS) : Progress × Bool :=
  let progress := Progress.zero
  match fs.ReadFile ProgressFile with
  | none => (progress, true)
  | some data => unmarshalProgress data progress

def saveProgress (fs : FS) (progress : Progress) : FS × Bool :=
  fs.WriteFile ProgressFile (.doc (marshalProgress progress))

def loadClaudeIntegration (fs : FS) : ClaudeIntegration × Bool :=
  let claude := ClaudeIntegration.zero
  match fs.ReadFile ClaudeFile with
  | none => (claude, true)
  | some data => unmarshalClaude data claude

def saveClaudeIntegration (fs : FS) (claude : ClaudeIntegration) : FS × Bool :=
  match marshalClaude claude with
  | none => (fs, true)
  | some data => fs.WriteFile ClaudeFile (.doc data)

/-- Name of the event file written at clock reading `now`. -/
def eventFile (now : Time) : Path := EventsDir ++ ["event-" ++ now.stamp ++ ".json"]

def logEvent (fs : FS) (now : Time) (event : List (String × GoAny)) : FS :=
  let filename := eventFile now
  match marshalAny (.map event) with
  | none => fs
  | some data => (fs.WriteFile filename (.doc data)).1

/-! ## Command handlers -/

/-- The loop over `dirs` in `initializeDojo`; the flag tells whether
`log.Fatalf` was reached. -/
def mkdirs : FS → List Path → FS × Bool
  | fs, [] => (fs, false)
  | fs, dir :: rest =>
    match fs.MkdirAll dir with
    | none => (fs, true)
    | some fs' => mkdirs fs' rest

/-- The Progress document built by `initializeDojo`. -/
def initialProgress (name : String) (now : Time) : Progress :=
  let progress := Progress.zero
  let progress := { progress with User := { progress.User with Name := name } }
  let progress := { progress with User := { progress.User with StartDate := now.date } }
  let progress := { progress with User := { progress.User with CurrentLevel := "dirt_claude" } }
  let foundations : List (String × Foundation) := []
  let foundations := mapSet foundations "cli_basics" ⟨"available", 0, 12, 0⟩
  let foundations := mapSet foundations "version_control" ⟨"locked", 0, 8, 0⟩
  let foundations := mapSet foundations "scripting" ⟨"locked", 0, 15, 0⟩
  { progress with Foundations := some foundations }

def initializeDojo (fs : FS) (stdin : String) (now : Time) : FS × Exit :=
  let dirs := [DojoDir, EventsDir, ["foundations"], ["practice"], ["summaries"]]
  match mkdirs fs dirs with
  | (fs, true) => (fs, .fatal)
  | (fs, false) =>
    if fs.Stat ProgressFile then (fs, .success)
    else
      let name := Scanln stdin
      let progress := initialProgress name now
      let fs := (saveProgress fs progress).1
      (fs, .success)

/-- The assistant-integration document built by `startSession`. -/
def sessionDocument (now : Time) : ClaudeIntegration :=
  let claude := ClaudeIntegration.zero
  let claude := { claude with Session := { claude.Session with Active := true } }
  let claude := { claude with Session := { claude.Session with StartTime := some now.rfc3339 } }
  let claude := { claude with Session := { claude.Session with LearningMode := "practice" } }
  let claude :=
    { claude with ClaudeBehavior := { claude.ClaudeBehavior with TeachingStyle := "socratic" } }
  let claude :=
    { claude with ClaudeBehavior := { claude.ClaudeBehavior with InterventionThreshold := 3 } }
  { claude with ClaudeBehavior := { claude.ClaudeBehavior with HintLevel := 1 } }

/-- The event logged by `startSession`. -/
def sessionEvent (progress : Progress) (now : Time) : List (String × GoAny) :=
  mapLit [("timestamp", .str now.rfc3339), ("type", .str "session_start"),
    ("user", .str progress.User.Name), ("level", .str progress.User.CurrentLevel),
    ("message", .str "User started training session")]

/-- Handler of `start`; `t1`, `t2`, `t3` are the three readings of the clock. -/
def startSession (fs : FS) (t1 t2 t3 : Time) : FS × Exit :=
  match loadProgress fs with
  | (_, true) => (fs, .success)
  | (progress, false) =>
    let claude := sessionDocument t1
    let fs := (saveClaudeIntegration fs claude).1
    let progress :=
      { progress with
        User := { progress.User with TotalSessions := wrapInt (progress.User.TotalSessions + 1) } }
    let fs := (saveProgress fs progress).1
    let event := sessionEvent progress t2
    let fs := logEvent fs t3 event
    (fs, .success)

/-- The overlay `startLesson` applies to the loaded assistant-integration
document. -/
def lessonDocument (claude : ClaudeIntegration) (topic : String) : ClaudeIntegration :=
  let claude := { claude with Session := { claude.Session with CurrentTopic := some topic } }
  let claude := { claude with LessonContext := { claude.LessonContext with Topic := some topic } }
  if topic = "cli-basics" then
    let objective := "Master terminal navigation, file operations, and basic commands"
    let claude :=
      { claude with LessonContext := { claude.LessonContext with Objective := some objective } }
    let claude := { claude with LessonContext := { claude.LessonContext with TotalSteps := 12 } }
    { claude with
      LessonContext :=
        { claude.LessonContext with
          KeyConcepts := some ["pwd", "ls", "cd", "mkdir", "touch", "cp", "mv", "rm"] } }
  else claude

/-- The event logged by `startLesson`. -/
def lessonEvent (progress : Progress) (topic : String) (now : Time) : List (String × GoAny) :=
  mapLit [("timestamp", .str now.rfc3339), ("type", .str "lesson_start"),
    ("topic", .str topic), ("user", .str progress.User.Name),
    ("message", .str ("Started lesson: " ++ topic))]

/-- Handler of `learn <topic>`; `t1`, `t2` are the two readings of the clock.
The objective is dereferenced for printing after the document and the event
have been written. -/
def startLesson (fs : FS) (topic : String) (t1 t2 : Time) : FS × Exit :=
  match loadProgress fs with
  | (_, true) => (fs, .success)
  | (progress, false) =>
    match mapIndex progress.Foundations topic with
    | none => (fs, .success)
    | some foundation =>
      if foundation.Status = "locked" then (fs, .success)
      else
        let claude := (loadClaudeIntegration fs).1
        let claude := lessonDocument claude topic
        let fs := (saveClaudeIntegration fs claude).1
        let event := lessonEvent progress topic t1
        let fs := logEvent fs t2 event
        match claude.LessonContext.Objective with
        | none => (fs, .nilDeref)
        | some _ => (fs, .success)

/-- The `learn` command: exactly one positional argument is required. -/
def learnCmd (fs : FS) (args : List String) (t1 t2 : Time) : FS × Exit :=
  match args with
  | [topic] => startLesson fs topic t1 t2
  | _ => (fs, .usage)

/-- A sequence of `start` commands, one triple of clock readings each. -/
def startSessions (fs : FS) : List (Time × Time × Time) → FS
  | [] => fs
  | (t1, t2, t3) :: rest => startSessions (startSession fs t1 t2 t3).1 rest

/-! ## Well-formed values

The values of the model that stand for Go values: integers are in the range
of `int` and the entries of a map are in strictly increasing key order. -/

/-- Keys in strictly increasing order. -/
def sortedKeys {V : Type} : List (String × V) → Bool
  | [] => true
  | kv :: r => r.all (fun x => keyLt kv.1 x.1) && sortedKeys r

def ProgressUser.WF (u : ProgressUser) : Bool :=
  fitsInt u.TotalSessions && fitsInt u.StreakDays

def Foundation.WF (f : Foundation) : Bool :=
  fitsInt f.LessonsCompleted && fitsInt f.TotalLessons && fitsInt f.MasteryScore

def Progress.WF (p : Progress) : Bool :=
  p.User.WF &&
    match p.Foundations with
    | none => true
    | some m => sortedKeys m && m.all fun kv => kv.2.WF

mutual
/-- A dynamically typed value that `json.Unmarshal` can store in an
`interface{}`: nil, a `bool`, a finite `float64`, a `string`, a non-nil
`[]interface{}` or a non-nil `map[string]interface{}` of such values. -/
def GoAny.native : GoAny → Bool
  | .nil => true
  | .bool _ => true
  | .int _ => false
  | .float64 x => x.finite && x.canonical
  | .str _ => true
  | .nilSlice => false
  | .slice xs => nativeList xs
  | .nilMap => false
  | .map kvs => sortedKeys kvs && nativeFields kvs
def nativeList : List GoAny → Bool
  | [] => true
  | x :: xs => x.native && nativeList xs
def nativeFields : List (String × GoAny) → Bool
  | [] => true
  | (_, v) :: r => v.native && nativeFields r
end

/-- An entry of the event log whose values are all native. -/
def nativeEntry : Option (List (String × GoAny)) → Bool
  | none => true
  | some m => sortedKeys m && nativeFields m

def ClaudeIntegration.WF (c : ClaudeIntegration) : Bool :=
  fitsInt c.UserState.ConsecutiveFailures && fitsInt c.UserState.AskForHelpCount &&
    fitsInt c.ClaudeBehavior.InterventionThreshold && fitsInt c.ClaudeBehavior.HintLevel &&
    fitsInt c.LessonContext.CurrentStep && fitsInt c.LessonContext.TotalSteps &&
    match c.EventLog with
    | none => true
    | some ms => ms.all nativeEntry

/-- The Progress value `startSession` saves: the loaded one with the session
counter incremented. -/
def bumpSessions (p : Progress) : Progress :=
  { p with User := { p.User with TotalSessions := wrapInt (p.User.TotalSessions + 1) } }

/-! ## Sample clock readings -/

def jan1 : Time := ⟨"2024-01-01", "2024-01-01T10:00:00Z", "20240101-100000"⟩
def jan2 : Time := ⟨"2024-01-02", "2024-01-02T09:00:00Z", "20240102-090000"⟩
def jan2later : Time := ⟨"2024-01-02", "2024-01-02T09:05:00Z", "20240102-090500"⟩
def jan3 : Time := ⟨"2024-01-03", "2024-01-03T09:00:00Z", "20240103-090000"⟩
def feb2 : Time := ⟨"2024-02-02", "2024-02-02T10:00:00Z", "20240202-100000"⟩


/-! ## Lemmas on `float64` -/

theorem roundHalfEven_mul (k d : Nat) (hd : 0 < d) : roundHalfEven (k * d) d = k := by
  simp [roundHalfEven, Nat.mul_mod_left, hd, Nat.mul_div_cancel _ hd]

theorem scaledDen_pos (x : Int) (i : Nat) : 0 < scaledDen x i := by
  unfold scaledDen; positivity

theorem scaledNum_eq (c : Nat) (x : Int) (m q i : Nat) (hi : i ≤ q)
    (h : c * 10 ^ x.toNat * 2 ^ (1074 - q) = m * 10 ^ (-x).toNat * 2 ^ (q - 1074)) :
    scaledNum c x i = m * 2 ^ (q - i) * scaledDen x i := by
  have hpos : 0 < 2 ^ (1074 - q) := by positivity
  apply Nat.eq_of_mul_eq_mul_right hpos
  have e1 : (q - 1074) + (1074 - i) = (q - i) + (i - 1074) + (1074 - q) := by omega
  calc scaledNum c x i * 2 ^ (1074 - q)
      = (c * 10 ^ x.toNat * 2 ^ (1074 - q)) * 2 ^ (1074 - i) := by
        unfold scaledNum; ring
    _ = m * 10 ^ (-x).toNat * (2 ^ (q - 1074) * 2 ^ (1074 - i)) := by rw [h]; ring
    _ = m * 10 ^ (-x).toNat * (2 ^ (q - i) * 2 ^ (i - 1074) * 2 ^ (1074 - q)) := by
        rw [← pow_add, ← pow_add, ← pow_add, e1]
    _ = m * 2 ^ (q - i) * scaledDen x i * 2 ^ (1074 - q) := by
        unfold scaledDen; ring

theorem parseMagFrom_exact (c : Nat) (x : Int) (m q : Nat)
    (hm : m < 2 ^ 53) (hn : 2 ^ 52 ≤ m ∨ q = 0)
    (h : c * 10 ^ x.toNat * 2 ^ (1074 - q) = m * 10 ^ (-x).toNat * 2 ^ (q - 1074)) :
    ∀ fuel i, i ≤ q → q - i < fuel → parseMagFrom c x fuel i = some (m, q) := by
  intro fuel
  induction fuel with
  | zero => intro i _ h2; omega
  | succ f ih =>
    intro i hi hf
    have hs := scaledNum_eq c x m q i hi h
    have hr : roundHalfEven (scaledNum c x i) (scaledDen x i) = m * 2 ^ (q - i) := by
      rw [hs]; exact roundHalfEven_mul _ _ (scaledDen_pos x i)
    rw [parseMagFrom, hr]
    by_cases hq : i = q
    · subst hq
      simp only [Nat.sub_self, Nat.pow_zero, Nat.mul_one, hm, if_true]
    · have hlt : i < q := lt_of_le_of_ne hi hq
      have h52 : 2 ^ 52 ≤ m := by
        rcases hn with h | h
        · exact h
        · omega
      have h2 : 2 ≤ 2 ^ (q - i) := by
        calc 2 = 2 ^ 1 := by norm_num
          _ ≤ 2 ^ (q - i) := Nat.pow_le_pow_right (by norm_num) (by omega)
      have hge : ¬ m * 2 ^ (q - i) < 2 ^ 53 := by
        have : 2 ^ 52 * 2 ≤ m * 2 ^ (q - i) := Nat.mul_le_mul h52 h2
        have e : (2 : Nat) ^ 53 = 2 ^ 52 * 2 := by norm_num
        omega
      simp only [hge, if_false]
      exact ih (i + 1) (by omega) (by omega)

theorem parseMag_exact (c : Nat) (x : Int) (m q : Nat)
    (hm : m < 2 ^ 53) (hq : q ≤ 2045) (hn : 2 ^ 52 ≤ m ∨ q = 0)
    (h : c * 10 ^ x.toNat * 2 ^ (1074 - q) = m * 10 ^ (-x).toNat * 2 ^ (q - 1074)) :
    parseMag c x = some (m, q) :=
  parseMagFrom_exact c x m q hm hn h 2046 0 (Nat.zero_le _) (by omega)

theorem parseFloat_exactLit (neg : Bool) (m q : Nat) (h : (F64.fin neg m q).canonical = true) :
    parseFloat (exactLit neg m q) = some (.fin neg m q) := by
  simp only [F64.canonical, Bool.and_eq_true, Bool.or_eq_true, decide_eq_true_eq] at h
  obtain ⟨⟨hm, hq⟩, hn⟩ := h
  unfold exactLit
  split
  · rename_i hge
    have : parseMag (m * 2 ^ (q - 1074)) 0 = some (m, q) := by
      apply parseMag_exact _ _ _ _ hm hq hn
      have : 1074 - q = 0 := by omega
      simp [this]
    simp [parseFloat, this]
  · rename_i hlt
    have : parseMag (m * 5 ^ (1074 - q)) (-((1074 - q : Nat) : Int)) = some (m, q) := by
      apply parseMag_exact _ _ _ _ hm hq hn
      have h0 : q - 1074 = 0 := by omega
      have h1 : (-((1074 - q : Nat) : Int)).toNat = 0 := by omega
      have h2 : (- -((1074 - q : Nat) : Int)).toNat = 1074 - q := by omega
      rw [h0, h1, h2]
      have : (10 : Nat) ^ (1074 - q) = 5 ^ (1074 - q) * 2 ^ (1074 - q) := by
        rw [← Nat.mul_pow]
      rw [this]; ring
    simp [parseFloat, this]

theorem firstSome_spec {α β : Type} (f : α → Option β) (P : β → Prop)
    (hf : ∀ a b, f a = some b → P b) : ∀ l b, firstSome f l = some b → P b := by
  intro l
  induction l with
  | nil => intro b h; simp [firstSome] at h
  | cons a r ih =>
    intro b h
    unfold firstSome at h
    cases hfa : f a with
    | some b0 =>
      rw [hfa] at h
      simp only [Option.some.injEq] at h
      exact h ▸ hf a b0 hfa
    | none =>
      rw [hfa] at h
      exact ih b h

theorem shortestAt_spec (neg : Bool) (m q : Nat) (k : Int) (n : Nat) (lit : JNum)
    (h : shortestAt neg m q k n = some lit) : parseFloat lit = some (.fin neg m q) := by
  unfold shortestAt at h
  simp only at h
  split at h
  · rename_i hboth
    simp only [Option.some.injEq] at h
    subst h
    -- the nearest candidate is one of the two
    unfold decRound roundHalfEven
    unfold decDigits at hboth
    split
    · exact hboth.1
    · split
      · exact hboth.2
      · split
        · exact hboth.1
        · exact hboth.2
  · split at h
    · rename_i hlo
      simp only [Option.some.injEq] at h
      exact h ▸ hlo
    · split at h
      · rename_i hhi
        simp only [Option.some.injEq] at h
        exact h ▸ hhi
      · cases h

/-- Parsing what `formatFloat` writes gives the number back. -/
theorem parseFloat_formatFloat (neg : Bool) (m q : Nat)
    (h : (F64.fin neg m q).canonical = true) :
    ∃ lit, formatFloat (.fin neg m q) = some lit ∧ parseFloat lit = some (.fin neg m q) := by
  unfold formatFloat
  by_cases hm : m = 0
  · subst hm
    have hq : q = 0 := by
      simp only [F64.canonical, Bool.and_eq_true, Bool.or_eq_true, decide_eq_true_eq] at h
      rcases h.2 with h | h
      · omega
      · exact h
    subst hq
    refine ⟨.int neg 0, by simp, ?_⟩
    have : parseMag 0 0 = some (0, 0) :=
      parseMag_exact 0 0 0 0 (by norm_num) (by norm_num) (Or.inr rfl)
        (by simp only [Nat.zero_mul])
    simp [parseFloat, this]
  · simp only [hm, if_false]
    refine ⟨_, rfl, ?_⟩
    cases hfs : firstSome (shortestAt neg m q (log10From m q 640 308)) (List.range 17) with
    | none => simpa using parseFloat_exactLit neg m q h
    | some lit =>
      simp only [Option.getD_some]
      exact firstSome_spec _ (fun l => parseFloat l = some (.fin neg m q))
        (fun a b hab => shortestAt_spec neg m q _ a b hab) _ lit hfs

theorem roundHalfEven_ge (n d : Nat) (hd : 0 < d)
    (h : 9007199254740992 ≤ roundHalfEven n d) : 18014398509481983 * d ≤ 2 * n := by
  have e := Nat.div_add_mod n d
  have hr := Nat.mod_lt n hd
  unfold roundHalfEven at h
  by_cases hq : 9007199254740992 ≤ n / d
  · have := Nat.mul_le_mul_left d hq
    omega
  · have hq1 : n / d = 9007199254740991 := by
      split at h
      · omega
      · split at h
        · omega
        · split at h <;> omega
    have h2 : d ≤ 2 * (n % d) := by
      split at h
      · omega
      · omega
    rw [hq1] at e
    omega

theorem roundHalfEven_le (n d : Nat) (hd : 0 < d)
    (h : 9007199254740991 * d < 2 * n) : 4503599627370496 ≤ roundHalfEven n d := by
  have e := Nat.div_add_mod n d
  have hr := Nat.mod_lt n hd
  unfold roundHalfEven
  by_cases hq : 4503599627370496 ≤ n / d
  · split
    · exact hq
    · split
      · omega
      · split <;> omega
  · have hq1 : n / d = 4503599627370495 := by
      by_contra hne
      have : n / d ≤ 4503599627370494 := by omega
      have := Nat.mul_le_mul_left d this
      omega
    rw [hq1] at e
    rw [hq1]
    have : d < 2 * (n % d) := by omega
    simp only [show ¬ 2 * (n % d) < d by omega, this, if_true, if_false]
    omega

theorem scaled_succ (c : Nat) (x : Int) (i : Nat) :
    scaledNum c x i * scaledDen x (i + 1) = 2 * scaledNum c x (i + 1) * scaledDen x i := by
  unfold scaledNum scaledDen
  by_cases h : i < 1074
  · have e1 : 1074 - i = (1074 - (i + 1)) + 1 := by omega
    have e2 : i + 1 - 1074 = 0 := by omega
    have e3 : i - 1074 = 0 := by omega
    rw [e1, e2, e3, pow_succ]; ring
  · have e1 : 1074 - i = 0 := by omega
    have e2 : 1074 - (i + 1) = 0 := by omega
    have e3 : i + 1 - 1074 = (i - 1074) + 1 := by omega
    rw [e1, e2, e3, pow_succ]; ring

/-- What the search returns is a `float64`: the mantissa is below `2 ^ 53`, the
exponent index is in range, and the mantissa is at least `2 ^ 52` unless the
index is 0. -/
theorem parseMagFrom_canonical (c : Nat) (x : Int) (m q : Nat) :
    ∀ fuel i, (i = 0 ∨ 18014398509481983 * scaledDen x i ≤ 4 * scaledNum c x i) →
      parseMagFrom c x fuel i = some (m, q) →
      m < 2 ^ 53 ∧ q < i + fuel ∧ (2 ^ 52 ≤ m ∨ q = 0) := by
  intro fuel
  induction fuel with
  | zero => intro i _ h; simp [parseMagFrom] at h
  | succ f ih =>
    intro i hi h
    rw [parseMagFrom] at h
    have hd := scaledDen_pos x i
    split at h
    · rename_i hlt
      simp only [Option.some.injEq, Prod.mk.injEq] at h
      obtain ⟨h1, h2⟩ := h
      subst h2
      refine ⟨h1 ▸ hlt, by omega, ?_⟩
      rcases hi with hi | hi
      · exact Or.inr hi
      · refine Or.inl ?_
        have := roundHalfEven_le (scaledNum c x i) (scaledDen x i) hd (by omega)
        have e : (2 : Nat) ^ 52 = 4503599627370496 := by norm_num
        omega
    · rename_i hge
      have hge2 : 9007199254740992 ≤ roundHalfEven (scaledNum c x i) (scaledDen x i) := by
        have e : (2 : Nat) ^ 53 = 9007199254740992 := by norm_num
        omega
      have h1 := roundHalfEven_ge _ _ hd hge2
      have h2 := scaled_succ c x i
      have hd1 := scaledDen_pos x (i + 1)
      have key : 18014398509481983 * scaledDen x (i + 1) ≤ 4 * scaledNum c x (i + 1) := by
        have a1 : 18014398509481983 * scaledDen x i * scaledDen x (i + 1) ≤
            2 * scaledNum c x i * scaledDen x (i + 1) := Nat.mul_le_mul_right _ h1
        have a2 : 2 * scaledNum c x i * scaledDen x (i + 1) =
            4 * scaledNum c x (i + 1) * scaledDen x i := by
          rw [Nat.mul_assoc, h2]; ring
        rw [a2] at a1
        have a3 : 18014398509481983 * scaledDen x (i + 1) * scaledDen x i ≤
            4 * scaledNum c x (i + 1) * scaledDen x i := by
          calc 18014398509481983 * scaledDen x (i + 1) * scaledDen x i
              = 18014398509481983 * scaledDen x i * scaledDen x (i + 1) := by ring
            _ ≤ _ := a1
        exact Nat.le_of_mul_le_mul_right a3 hd
      obtain ⟨r1, r2, r3⟩ := ih (i + 1) (Or.inr key) h
      exact ⟨r1, by omega, r3⟩

/-- What `parseFloat` returns is a finite `float64`. -/
theorem parseFloat_canonical (lit : JNum) (f : F64) (h : parseFloat lit = some f) :
    f.finite = true ∧ f.canonical = true := by
  have key : ∀ (neg : Bool) (c : Nat) (x : Int),
      (parseMag c x).map (fun r => F64.fin neg r.1 r.2) = some f →
      f.finite = true ∧ f.canonical = true := by
    intro neg c x h
    cases hp : parseMag c x with
    | none => rw [hp] at h; cases h
    | some r =>
      obtain ⟨m, q⟩ := r
      rw [hp] at h
      simp only [Option.map_some', Option.some.injEq] at h
      subst h
      obtain ⟨r1, r2, r3⟩ := parseMagFrom_canonical c x m q 2046 0 (Or.inl rfl) hp
      refine ⟨rfl, ?_⟩
      simp only [F64.canonical, Bool.and_eq_true, Bool.or_eq_true, decide_eq_true_eq]
      exact ⟨⟨r1, by omega⟩, r3⟩
  cases lit with
  | int neg n => exact key neg n 0 h
  | dec neg c x => exact key neg c x h

/-! ## Lemmas on maps and on the JSON codec -/

theorem keyLt_iff (a b : String) : keyLt a b = true ↔ a < b := by
  simp [keyLt, String.lt_iff_toList_lt]

theorem mapSet_above {V : Type} (acc : List (String × V)) (k : String) (v : V)
    (h : ∀ x ∈ acc, keyLt x.1 k = true) : mapSet acc k v = acc ++ [(k, v)] := by
  induction acc with
  | nil => rfl
  | cons a r ih =>
    obtain ⟨k', v'⟩ := a
    have hk : k' < k := (keyLt_iff _ _).1 (h (k', v') (by simp))
    have h1 : ¬ k = k' := fun e => (lt_irrefl k) (e ▸ hk)
    have h2 : keyLt k k' = false := by
      rw [Bool.eq_false_iff]; intro c
      exact lt_asymm hk ((keyLt_iff _ _).1 c)
    simp only [mapSet, h1, h2, if_false, List.cons_append]
    rw [ih (fun x hx => h x (by simp [hx]))]
    simp

theorem sortedKeys_append {V : Type} (acc r : List (String × V)) :
    sortedKeys (acc ++ r) = true ↔
      sortedKeys acc = true ∧ sortedKeys r = true ∧
        ∀ x ∈ acc, ∀ y ∈ r, keyLt x.1 y.1 = true := by
  induction acc with
  | nil => simp [sortedKeys]
  | cons a t ih =>
    simp only [List.cons_append, sortedKeys, List.append_eq, Bool.and_eq_true,
      List.all_eq_true, ih, List.mem_append, List.mem_cons]
    constructor
    · rintro ⟨h1, h2, h3, h4⟩
      refine ⟨⟨fun x hx => h1 x (Or.inl hx), h2⟩, h3, ?_⟩
      rintro x (rfl | hx) y hy
      · exact h1 y (Or.inr hy)
      · exact h4 x hx y hy
    · rintro ⟨⟨h1, h2⟩, h3, h4⟩
      refine ⟨?_, h2, h3, fun x hx y hy => h4 x (Or.inr hx) y hy⟩
      rintro x (hx | hx)
      · exact h1 x hx
      · exact h4 a (Or.inl rfl) x hx


theorem storeStringPtr_marshal (cur s : Option String) :
    storeStringPtr cur (marshalStringPtr s) = (s, false) := by
  cases s <;> rfl

theorem storeString_str (cur s : String) : storeString cur (.str s) = (s, false) := rfl

theorem storeElems_storeString_str (old l : List String) :
    storeElems storeString "" old (l.map Json.str) = l.map fun s => (s, false) := by
  induction l generalizing old with
  | nil => cases old <;> rfl
  | cons a t ih =>
    cases old with
    | nil => simp only [List.map_cons, storeElems, storeString_str, ih]
    | cons b r => simp only [List.map_cons, storeElems, storeString_str, ih]

theorem map_fst_ok {α : Type} (l : List α) :
    (l.map fun s => (s, false)).map (fun r => r.1) = l := by
  induction l with
  | nil => rfl
  | cons a t ih => simp only [List.map_cons, ih]

theorem any_snd_ok {α : Type} (l : List α) :
    (l.map fun s => (s, false)).any (fun r => r.2) = false := by
  induction l with
  | nil => rfl
  | cons a t ih => simp only [List.map_cons, List.any_cons, ih, Bool.or_false]

theorem storeStrings_marshal (cur xs : Option (List String)) :
    storeStrings cur (marshalStrings xs) = (xs, false) := by
  cases xs with
  | none => rfl
  | some l =>
    simp only [marshalStrings, storeStrings, storeElems_storeString_str, map_fst_ok,
      any_snd_ok]

theorem intValue_natAbs (n : Int) : intValue (decide (n < 0)) n.natAbs = n := by
  unfold intValue
  by_cases h : n < 0
  · simp only [h, decide_True, if_true]; omega
  · simp only [h, decide_False, Bool.false_eq_true, if_false]; omega

theorem storeInt_marshalInt (cur n : Int) (h : fitsInt n = true) :
    storeInt cur (marshalInt n) = (n, false) := by
  simp only [marshalInt, storeInt, intValue_natAbs, h, if_true]

theorem storeUser_marshal (u : ProgressUser) (h : u.WF = true) :
    storeUser ProgressUser.zero (marshalUser u) = (u, false) := by
  simp only [ProgressUser.WF, Bool.and_eq_true] at h
  simp [marshalUser, storeUser, stepUser, foldName, foldChar, storeString,
    storeInt_marshalInt _ _ h.1, storeInt_marshalInt _ _ h.2]

theorem storeFoundation_marshal (f : Foundation) (h : f.WF = true) :
    storeFoundation Foundation.zero (marshalFoundation f) = (f, false) := by
  simp only [Foundation.WF, Bool.and_eq_true] at h
  simp [marshalFoundation, storeFoundation, stepFoundation, foldName, foldChar, storeString,
    storeInt_marshalInt _ _ h.1.1, storeInt_marshalInt _ _ h.1.2, storeInt_marshalInt _ _ h.2]

theorem foldl_stepFoundations (m acc : List (String × Foundation))
    (hs : sortedKeys (acc ++ m) = true) (hw : ∀ kv ∈ m, kv.2.WF = true) :
    (m.map fun kv => (kv.1, marshalFoundation kv.2)).foldl stepFoundations (acc, false) =
      (acc ++ m, false) := by
  induction m generalizing acc with
  | nil => simp
  | cons a t ih =>
    obtain ⟨k, f⟩ := a
    have hacc : ∀ x ∈ acc, keyLt x.1 k = true := fun x hx =>
      ((sortedKeys_append acc ((k, f) :: t)).1 hs).2.2 x hx (k, f) (by simp)
    simp only [List.map_cons, List.foldl_cons, stepFoundations,
      storeFoundation_marshal f (hw (k, f) (by simp)), mapSet_above acc k f hacc,
      Bool.or_false]
    rw [ih (acc ++ [(k, f)]) (by simpa using hs) (fun kv hkv => hw kv (by simp [hkv]))]
    simp

theorem storeFoundations_marshal (m : Option (List (String × Foundation)))
    (h : ∀ l, m = some l → sortedKeys l = true ∧ ∀ kv ∈ l, kv.2.WF = true) :
    storeFoundations none (marshalFoundations m) = (m, false) := by
  cases m with
  | none => rfl
  | some l =>
    obtain ⟨hs, hw⟩ := h l rfl
    simp only [marshalFoundations, storeFoundations, Option.getD_none]
    rw [foldl_stepFoundations l [] (by simpa using hs) hw]
    simp

theorem storeLearningStyle_marshal (l : ProgressLearningStyle) :
    storeLearningStyle ProgressLearningStyle.zero (marshalLearningStyle l) = (l, false) := by
  simp [marshalLearningStyle, storeLearningStyle, stepLearningStyle, foldName, foldChar,
    storeString, storeStrings_marshal]

/-- Decoding the encoding of a well-formed Progress value gives the value back. -/
theorem storeProgress_marshal (p : Progress) (h : p.WF = true) :
    storeProgress Progress.zero (marshalProgress p) = (p, false) := by
  have hu : p.User.WF = true := by
    simp only [Progress.WF, Bool.and_eq_true] at h; exact h.1
  have hf : ∀ l, p.Foundations = some l → sortedKeys l = true ∧ ∀ kv ∈ l, kv.2.WF = true := by
    intro l hl
    simp only [Progress.WF, hl, Bool.and_eq_true, List.all_eq_true] at h
    exact h.2
  simp [marshalProgress, storeProgress, stepProgress, foldName, foldChar, Progress.zero,
    storeUser_marshal p.User hu, storeFoundations_marshal p.Foundations hf,
    storeStrings_marshal, storeStringPtr_marshal, storeLearningStyle_marshal]


/-! ## Lemmas on the filesystem -/

theorem lookupFile_setFile_self (l : List (Path × FileData)) (p : Path) (d : FileData) :
    lookupFile (setFile l p d) p = some d := by
  induction l with
  | nil => simp [setFile, lookupFile]
  | cons a t ih =>
    obtain ⟨q, e⟩ := a
    by_cases h : p = q
    · simp [setFile, lookupFile, h]
    · simp [setFile, lookupFile, h, ih]

theorem lookupFile_setFile_ne (l : List (Path × FileData)) (p q : Path) (d : FileData)
    (h : p ≠ q) : lookupFile (setFile l q d) p = lookupFile l p := by
  induction l with
  | nil => simp [setFile, lookupFile, h]
  | cons a t ih =>
    obtain ⟨r, e⟩ := a
    by_cases h1 : q = r
    · subst h1; simp [setFile, lookupFile, h]
    · by_cases h2 : p = r
      · simp [setFile, lookupFile, h1, h2]
      · simp [setFile, lookupFile, h1, h2, ih]

theorem WriteFile_dirs (fs : FS) (p : Path) (d : FileData) :
    (fs.WriteFile p d).1.dirs = fs.dirs := by
  unfold FS.WriteFile; split <;> rfl

theorem WriteFile_isDir (fs : FS) (p q : Path) (d : FileData) :
    (fs.WriteFile p d).1.isDir q = fs.isDir q := by
  simp [FS.isDir, WriteFile_dirs]

theorem WriteFile_canWrite (fs : FS) (p q : Path) (d : FileData) :
    (fs.WriteFile p d).1.canWrite q = fs.canWrite q := by
  simp [FS.canWrite, WriteFile_isDir]

theorem WriteFile_files (fs : FS) (p : Path) (d : FileData) (h : fs.canWrite p = true) :
    (fs.WriteFile p d).1.files = setFile fs.files p d := by
  simp [FS.WriteFile, h]

theorem ReadFile_WriteFile_self (fs : FS) (p : Path) (d : FileData)
    (h : fs.canWrite p = true) : (fs.WriteFile p d).1.ReadFile p = some d := by
  simp [FS.ReadFile, WriteFile_files fs p d h, lookupFile_setFile_self]

theorem ReadFile_WriteFile_ne (fs : FS) (p q : Path) (d : FileData) (h : q ≠ p) :
    (fs.WriteFile p d).1.ReadFile q = fs.ReadFile q := by
  unfold FS.WriteFile FS.ReadFile
  split
  · exact lookupFile_setFile_ne _ _ _ _ h
  · rfl

theorem foldl_addDir_mem (l ds : List Path) (x : Path) :
    x ∈ l.foldl (fun ds d => if d ∈ ds then ds else ds ++ [d]) ds ↔ x ∈ ds ∨ x ∈ l := by
  induction l generalizing ds with
  | nil => simp
  | cons a t ih =>
    simp only [List.foldl_cons, ih, List.mem_cons]
    by_cases h : a ∈ ds
    · simp only [h, if_true]
      constructor
      · rintro (h1 | h1)
        · exact Or.inl h1
        · exact Or.inr (Or.inr h1)
      · rintro (h1 | rfl | h1)
        · exact Or.inl h1
        · exact Or.inl h
        · exact Or.inr h1
    · simp only [h, if_false, List.mem_append, List.mem_singleton]
      tauto

theorem foldl_addDir_id (l ds : List Path) (h : ∀ x ∈ l, x ∈ ds) :
    l.foldl (fun ds d => if d ∈ ds then ds else ds ++ [d]) ds = ds := by
  induction l with
  | nil => rfl
  | cons a t ih =>
    simp only [List.foldl_cons, h a (by simp), if_true]
    exact ih fun x hx => h x (by simp [hx])

theorem MkdirAll_files (fs fs' : FS) (p : Path) (h : fs.MkdirAll p = some fs') :
    fs'.files = fs.files := by
  unfold FS.MkdirAll at h
  split at h
  · cases h
  · cases h; rfl

theorem MkdirAll_mem (fs fs' : FS) (p : Path) (h : fs.MkdirAll p = some fs') (x : Path) :
    x ∈ fs'.dirs ↔ x ∈ fs.dirs ∨ x ∈ ancestors p := by
  unfold FS.MkdirAll at h
  split at h
  · cases h
  · cases h; exact foldl_addDir_mem _ _ _

theorem MkdirAll_noFile (fs fs' : FS) (p : Path) (h : fs.MkdirAll p = some fs') :
    ∀ a ∈ ancestors p, fs.isFile a = false := by
  unfold FS.MkdirAll at h
  split at h
  · cases h
  · rename_i hn
    intro a ha
    simp only [List.any_eq_true, not_exists, not_and, Bool.not_eq_true] at hn
    exact hn a ha

theorem MkdirAll_id (fs : FS) (p : Path) (h1 : ∀ a ∈ ancestors p, fs.isFile a = false)
    (h2 : ∀ a ∈ ancestors p, a ∈ fs.dirs) : fs.MkdirAll p = some fs := by
  unfold FS.MkdirAll
  have hn : (ancestors p).any fs.isFile = false := by
    rw [Bool.eq_false_iff]
    simp only [ne_eq, List.any_eq_true, not_exists, not_and, Bool.not_eq_true]
    exact h1
  simp only [hn, Bool.false_eq_true, if_false, foldl_addDir_id _ _ h2]

/-- What a run of the directory loop that does not abort establishes. -/
theorem mkdirs_ok (l : List Path) (fs fs' : FS) (h : mkdirs fs l = (fs', false)) :
    fs'.files = fs.files ∧ (∀ x ∈ fs.dirs, x ∈ fs'.dirs) ∧
      (∀ d ∈ l, ∀ a ∈ ancestors d, a ∈ fs'.dirs ∧ fs.isFile a = false) ∧
      (∀ x ∈ fs'.dirs, x ∈ fs.dirs ∨ ∃ d ∈ l, x ∈ ancestors d) := by
  induction l generalizing fs with
  | nil =>
    simp only [mkdirs, Prod.mk.injEq, and_true] at h
    subst h
    simp
  | cons d t ih =>
    simp only [mkdirs] at h
    cases hm : fs.MkdirAll d with
    | none => simp [hm] at h
    | some fs1 =>
      simp only [hm] at h
      obtain ⟨hf, hsub, hanc, hsup⟩ := ih fs1 h
      have hf1 := MkdirAll_files fs fs1 d hm
      have hisFile : ∀ a, fs1.isFile a = fs.isFile a := fun a => by simp [FS.isFile, hf1]
      refine ⟨hf.trans hf1, ?_, ?_, ?_⟩
      · intro x hx
        exact hsub x ((MkdirAll_mem fs fs1 d hm x).2 (Or.inl hx))
      · intro e he a ha
        rcases List.mem_cons.1 he with rfl | he
        · exact ⟨hsub a ((MkdirAll_mem fs fs1 e hm a).2 (Or.inr ha)),
            MkdirAll_noFile fs fs1 e hm a ha⟩
        · exact ⟨(hanc e he a ha).1, (hisFile a) ▸ (hanc e he a ha).2⟩
      · intro x hx
        rcases hsup x hx with h1 | ⟨e, he, hxe⟩
        · rcases (MkdirAll_mem fs fs1 d hm x).1 h1 with h2 | h2
          · exact Or.inl h2
          · exact Or.inr ⟨d, by simp, h2⟩
        · exact Or.inr ⟨e, by simp [he], hxe⟩

/-- The directory loop changes nothing when every directory already exists and
no regular file is in the way. -/
theorem mkdirs_id (l : List Path) (fs : FS)
    (h : ∀ d ∈ l, ∀ a ∈ ancestors d, a ∈ fs.dirs ∧ fs.isFile a = false) :
    mkdirs fs l = (fs, false) := by
  induction l with
  | nil => rfl
  | cons d t ih =>
    have hm : fs.MkdirAll d = some fs :=
      MkdirAll_id fs d (fun a ha => (h d (by simp) a ha).2) (fun a ha => (h d (by simp) a ha).1)
    simp only [mkdirs, hm]
    exact ih fun e he => h e (by simp [he])

/-- The directory loop never touches regular files, also when it aborts. -/
theorem mkdirs_files (l : List Path) (fs : FS) : (mkdirs fs l).1.files = fs.files := by
  induction l generalizing fs with
  | nil => rfl
  | cons d t ih =>
    simp only [mkdirs]
    cases hm : fs.MkdirAll d with
    | none => rfl
    | some fs1 => simp only [ih fs1, MkdirAll_files fs fs1 d hm]


/-! ## Lemmas on `initializeDojo` -/

/-- The directories `initializeDojo` creates. -/
theorem initDirs_ancestors (a : Path)
    (h : ∃ d ∈ [DojoDir, EventsDir, ["foundations"], ["practice"], ["summaries"]],
      a ∈ ancestors d) :
    a = DojoDir ∨ a = EventsDir ∨ a = ["foundations"] ∨ a = ["practice"] ∨
      a = ["summaries"] := by
  obtain ⟨d, hd, ha⟩ := h
  simp only [List.mem_cons, List.mem_singleton, List.not_mem_nil, or_false] at hd
  rcases hd with rfl | rfl | rfl | rfl | rfl <;>
    simp [ancestors, DojoDir, EventsDir, List.range, List.range.loop] at ha ⊢ <;>
    tauto

/-- Creating the directories does not change whether the progress file exists. -/
theorem mkdirs_Stat_ProgressFile (fs fsm : FS)
    (hm : mkdirs fs [DojoDir, EventsDir, ["foundations"], ["practice"], ["summaries"]] =
      (fsm, false)) :
    fsm.Stat ProgressFile = fs.Stat ProgressFile := by
  obtain ⟨hf, hsub, _, hsup⟩ := mkdirs_ok _ fs fsm hm
  have hd : (ProgressFile ∈ fsm.dirs) ↔ (ProgressFile ∈ fs.dirs) := by
    constructor
    · intro h
      rcases hsup _ h with h1 | h1
      · exact h1
      · rcases initDirs_ancestors _ h1 with h2 | h2 | h2 | h2 | h2 <;>
          simp [ProgressFile, DojoDir, EventsDir] at h2
    · exact hsub _
  simp [FS.Stat, FS.isDir, FS.isFile, hf, hd]

theorem initializeDojo_fatal (fs fsm : FS) (stdin : String) (now : Time)
    (hm : mkdirs fs [DojoDir, EventsDir, ["foundations"], ["practice"], ["summaries"]] =
      (fsm, true)) :
    initializeDojo fs stdin now = (fsm, .fatal) := by
  simp [initializeDojo, hm]

theorem initializeDojo_exists (fs fsm : FS) (stdin : String) (now : Time)
    (hm : mkdirs fs [DojoDir, EventsDir, ["foundations"], ["practice"], ["summaries"]] =
      (fsm, false))
    (hs : fs.Stat ProgressFile = true) :
    initializeDojo fs stdin now = (fsm, .success) := by
  simp [initializeDojo, hm, mkdirs_Stat_ProgressFile fs fsm hm, hs]

theorem initializeDojo_fresh (fs fsm : FS) (stdin : String) (now : Time)
    (hm : mkdirs fs [DojoDir, EventsDir, ["foundations"], ["practice"], ["summaries"]] =
      (fsm, false))
    (hs : fs.Stat ProgressFile = false) :
    initializeDojo fs stdin now =
      (⟨fsm.dirs, setFile fs.files ProgressFile
        (.doc (marshalProgress (initialProgress (Scanln stdin) now)))⟩, .success) := by
  obtain ⟨hf, _, hanc, _⟩ := mkdirs_ok _ fs fsm hm
  have hs' := mkdirs_Stat_ProgressFile fs fsm hm
  rw [hs] at hs'
  have hdojo : DojoDir ∈ fsm.dirs :=
    (hanc DojoDir (by simp) DojoDir (by simp [ancestors, DojoDir, List.range, List.range.loop])).1
  have hnd : fsm.isDir ProgressFile = false := by
    simp only [FS.Stat, Bool.or_eq_false_iff] at hs'
    exact hs'.1
  have hw : fsm.canWrite ProgressFile = true := by
    have : fsm.isDir [".dojo"] = true := by
      simp only [FS.isDir, Bool.or_eq_true, decide_eq_true_eq]
      exact Or.inr hdojo
    simp only [FS.canWrite, hnd, Bool.not_false, Bool.and_true]
    exact this
  simp [initializeDojo, hm, hs', saveProgress, FS.WriteFile, hw, hf]

/-- The directory loop succeeds again on the state a successful `init` leaves. -/
theorem mkdirs_again (fs fsm : FS) (files : List (Path × FileData))
    (hm : mkdirs fs [DojoDir, EventsDir, ["foundations"], ["practice"], ["summaries"]] =
      (fsm, false))
    (hfiles : ∀ a ∈ fsm.dirs, lookupFile files a = lookupFile fs.files a) :
    mkdirs ⟨fsm.dirs, files⟩ [DojoDir, EventsDir, ["foundations"], ["practice"], ["summaries"]] =
      (⟨fsm.dirs, files⟩, false) := by
  obtain ⟨_, _, hanc, _⟩ := mkdirs_ok _ fs fsm hm
  apply mkdirs_id
  intro d hd a ha
  obtain ⟨h1, h2⟩ := hanc d hd a ha
  refine ⟨h1, ?_⟩
  simp only [FS.isFile] at h2 ⊢
  rw [hfiles a h1]; exact h2


theorem takeWhile_notSpace (l r : List Char) (h : ∀ c ∈ l, isSpace c = false) :
    (l ++ '\n' :: r).takeWhile (fun c => !isSpace c) = l := by
  induction l with
  | nil =>
    have : isSpace '\n' = true := by decide
    simp [List.takeWhile, this]
  | cons a t ih =>
    have ha : isSpace a = false := h a (by simp)
    simp only [List.cons_append, List.takeWhile, ha, Bool.not_false, List.append_eq]
    rw [ih fun c hc => h c (by simp [hc])]

theorem dropWhile_space (l r : List Char) (h : ∀ c ∈ l, isSpace c = false) :
    (l ++ '\n' :: r).dropWhile (fun c => isSpace c && c != '\n') = l ++ '\n' :: r := by
  cases l with
  | nil => simp [List.dropWhile]
  | cons a t =>
    have ha : isSpace a = false := h a (by simp)
    simp [List.dropWhile, ha]

/-- A name without space characters, followed by a newline, is read whole. -/
theorem Scanln_token (n rest : String) (h : ∀ c ∈ n.data, isSpace c = false) :
    Scanln (n ++ "\n" ++ rest) = n := by
  have hd : (n ++ "\n" ++ rest).data = n.data ++ '\n' :: rest.data := by
    simp [String.data_append]
  simp only [Scanln, hd, dropWhile_space n.data rest.data h, takeWhile_notSpace n.data rest.data h]


theorem loadProgress_of_file (fs : FS) (p : Progress)
    (h : fs.ReadFile ProgressFile = some (.doc (marshalProgress p))) (hw : p.WF = true) :
    loadProgress fs = (p, false) := by
  simp [loadProgress, h, unmarshalProgress, storeProgress_marshal p hw]

/-! ## The claims about `init` -/

/-- C5: `init` is idempotent. For every starting state and every two lines
typed at the prompt, a second `init` after a first one that returned normally
leaves the whole state as the first run left it (in particular the progress
file, whose second name and date are not written); and whenever something
already exists at the path of the progress file, `initializeDojo` changes no
regular file: it writes no document and no event. -/
theorem C5_init_idempotent (fs : FS) (stdin1 stdin2 : String) (now1 now2 : Time) :
    ((initializeDojo fs stdin1 now1).2 = .success →
      initializeDojo (initializeDojo fs stdin1 now1).1 stdin2 now2 =
        ((initializeDojo fs stdin1 now1).1, .success)) ∧
    (fs.Stat ProgressFile = true → (initializeDojo fs stdin2 now2).1.files = fs.files) := by
  rcases hm : mkdirs fs [DojoDir, EventsDir, ["foundations"], ["practice"], ["summaries"]]
    with ⟨fsm, b⟩
  have hfiles : fsm.files = fs.files := by
    have := mkdirs_files [DojoDir, EventsDir, ["foundations"], ["practice"], ["summaries"]] fs
    rw [hm] at this; exact this
  cases b with
  | true =>
    refine ⟨?_, fun _ => ?_⟩
    · rw [initializeDojo_fatal fs fsm stdin1 now1 hm]
      intro h; cases h
    · rw [initializeDojo_fatal fs fsm stdin2 now2 hm]; exact hfiles
  | false =>
    have hst := mkdirs_Stat_ProgressFile fs fsm hm
    refine ⟨fun _ => ?_, fun hs => ?_⟩
    · cases hs : fs.Stat ProgressFile with
      | true =>
        rw [initializeDojo_exists fs fsm stdin1 now1 hm hs]
        have hagain := mkdirs_again fs fsm fsm.files hm (fun a _ => by rw [hfiles])
        exact initializeDojo_exists fsm fsm stdin2 now2 hagain (hst.trans hs)
      | false =>
        rw [initializeDojo_fresh fs fsm stdin1 now1 hm hs]
        have hnd : ProgressFile ∉ fsm.dirs := by
          have h1 := hst.trans hs
          simp only [FS.Stat, FS.isDir, Bool.or_eq_false_iff, decide_eq_false_iff_not] at h1
          exact h1.1.2
        have hagain := mkdirs_again fs fsm
          (setFile fs.files ProgressFile
            (.doc (marshalProgress (initialProgress (Scanln stdin1) now1)))) hm
          (fun a ha => lookupFile_setFile_ne _ _ _ _ (fun e => hnd (e ▸ ha)))
        refine initializeDojo_exists _ _ stdin2 now2 hagain ?_
        simp [FS.Stat, FS.isFile, lookupFile_setFile_self]
    · rw [initializeDojo_exists fs fsm stdin2 now2 hm hs]; exact hfiles

/-- Witness for C5: two runs of `init` on an empty directory, and a run on a
state in which the progress file exists. -/
theorem C5_init_idempotent_witness :
    (initializeDojo FS.empty "Ada\n" jan1).2
        = .success ∧
      initializeDojo
          (initializeDojo FS.empty "Ada\n"
            jan1).1
          "Bob\n" feb2 =
        ((initializeDojo FS.empty "Ada\n"
            jan1).1, .success) :=
  ⟨by decide,
    (C5_init_idempotent FS.empty "Ada\n" "Bob\n"
      jan1
      feb2).1 (by decide)⟩

/-- C6 (as stated, refuted): the name typed at the prompt is not always the
name stored, and a directory without a progress file does not always get one.
With `Ada Lovelace` typed, `init` on an empty directory stores the name `Ada`;
and where a regular file named `foundations` exists, `init` aborts before
writing the progress file. -/
theorem C6_counterexample :
    (loadProgress (initializeDojo FS.empty "Ada Lovelace\n"
        jan1).1).1.User.Name ≠
      "Ada Lovelace" ∧
    FS.Stat ⟨[], [(["foundations"], .invalid "")]⟩ ProgressFile = false ∧
    (initializeDojo ⟨[], [(["foundations"], .invalid "")]⟩ "Ada\n"
        jan1).2 = .fatal ∧
    (initializeDojo ⟨[], [(["foundations"], .invalid "")]⟩ "Ada\n"
        jan1).1.Stat ProgressFile =
      false := by
  decide

/-- C6 (amended): for every name `n` without space characters typed at the
prompt and followed by a newline, `init` on a state with nothing at the path of
the progress file, when creating the directories succeeds, stores a Progress
document that loads without error as: `user.name = n`, `user.start_date` the
current date, `user.current_level = "dirt_claude"`, `user.total_sessions = 0`,
and a foundations map with exactly the keys `cli_basics` (available, 12
lessons), `scripting` (locked, 15) and `version_control` (locked, 8), each with
`lessons_completed = 0` and `mastery_score = 0`; every other field is zero. -/
theorem C6_init_document (fs : FS) (n rest : String) (now : Time)
    (hn : ∀ c ∈ n.data, isSpace c = false)
    (hs : fs.Stat ProgressFile = false)
    (hm : (mkdirs fs [DojoDir, EventsDir, ["foundations"], ["practice"], ["summaries"]]).2 =
      false) :
    (initializeDojo fs (n ++ "\n" ++ rest) now).2 = .success ∧
    loadProgress (initializeDojo fs (n ++ "\n" ++ rest) now).1 =
      (⟨⟨n, now.date, "dirt_claude", 0, 0⟩,
        some [("cli_basics", ⟨"available", 0, 12, 0⟩), ("scripting", ⟨"locked", 0, 15, 0⟩),
          ("version_control", ⟨"locked", 0, 8, 0⟩)],
        none, none, ⟨"", none, none⟩⟩, false) := by
  rcases hm' : mkdirs fs [DojoDir, EventsDir, ["foundations"], ["practice"], ["summaries"]]
    with ⟨fsm, b⟩
  rw [hm'] at hm
  simp only at hm
  subst hm
  rw [initializeDojo_fresh fs fsm _ now hm' hs, Scanln_token n rest hn]
  refine ⟨rfl, ?_⟩
  exact loadProgress_of_file _ (initialProgress n now)
    (by simp [FS.ReadFile, lookupFile_setFile_self]) rfl

/-- Witness for C6: the name `Ada` typed on an empty directory. -/
theorem C6_init_document_witness :
    (∀ c ∈ "Ada".data, isSpace c = false) ∧ FS.empty.Stat ProgressFile = false ∧
    (mkdirs FS.empty [DojoDir, EventsDir, ["foundations"], ["practice"], ["summaries"]]).2 =
      false ∧
    loadProgress (initializeDojo FS.empty ("Ada" ++ "\n" ++ "")
        jan1).1 =
      (⟨⟨"Ada", "2024-01-01", "dirt_claude", 0, 0⟩,
        some [("cli_basics", ⟨"available", 0, 12, 0⟩), ("scripting", ⟨"locked", 0, 15, 0⟩),
          ("version_control", ⟨"locked", 0, 8, 0⟩)],
        none, none, ⟨"", none, none⟩⟩, false) :=
  ⟨by decide, by decide, by decide,
    (C6_init_document FS.empty "Ada" ""
      jan1
      (by decide) (by decide) (by decide)).2⟩

/-- C7 (as stated, refuted): after a successful `init` on an empty directory
nothing exists at `.dojo/claude-integration.json`. -/
theorem C7_counterexample :
    (initializeDojo FS.empty "Ada\n"
        jan1).2 = .success ∧
    (initializeDojo FS.empty "Ada\n"
        jan1).1.Stat ClaudeFile =
      false := by
  decide

/-- C7 (amended): `init` on an empty directory returns normally and leaves
exactly the directories `.dojo`, `.dojo/events`, `foundations`, `practice` and
`summaries` and exactly one regular file, `.dojo/progress.json`, holding the
initial Progress document; `.dojo/claude-integration.json` is not created by
`init`. -/
theorem C7_init_layout (stdin : String) (now : Time) :
    initializeDojo FS.empty stdin now =
      (⟨[[".dojo"], [".dojo", "events"], ["foundations"], ["practice"], ["summaries"]],
        [([".dojo", "progress.json"],
          .doc (marshalProgress (initialProgress (Scanln stdin) now)))]⟩, .success) ∧
    (initializeDojo FS.empty stdin now).1.Stat ClaudeFile = false := by
  exact ⟨rfl, rfl⟩


/-! ## The claims about `learn` and `start` -/

/-- C1 (the code at the failing input): after `init` on an empty directory,
whatever name is typed, the foundations map has the key `cli_basics` and no key
`cli-basics`; `startLesson` looks the topic up as given, so `learn cli-basics`
returns at the not-found branch and leaves the state as `init` left it: no
assistant-integration document exists and no event file has been written. -/
theorem C1_learn_cli_basics_not_found (stdin : String) (now t1 t2 : Time) :
    mapIndex (loadProgress (initializeDojo FS.empty stdin now).1).1.Foundations "cli_basics" =
      some ⟨"available", 0, 12, 0⟩ ∧
    mapIndex (loadProgress (initializeDojo FS.empty stdin now).1).1.Foundations "cli-basics" =
      none ∧
    startLesson (initializeDojo FS.empty stdin now).1 "cli-basics" t1 t2 =
      ((initializeDojo FS.empty stdin now).1, .success) ∧
    (initializeDojo FS.empty stdin now).1.Stat ClaudeFile = false ∧
    (initializeDojo FS.empty stdin now).1.files.map Prod.fst = [ProgressFile] :=
  ⟨rfl, rfl, rfl, rfl, rfl⟩

/-- C2 (the code at the failing input): after `init` on an empty directory,
whatever name is typed, `learn cli_basics` passes the lookup and the lock
check, writes the document and the event, and then dereferences a nil
objective: the process ends with a runtime fault and a non-zero status although
the command line was well-formed. -/
theorem C2_learn_nil_objective (stdin : String) (now t1 t2 : Time) :
    (learnCmd (initializeDojo FS.empty stdin now).1 ["cli_basics"] t1 t2).2 = .nilDeref ∧
    (learnCmd (initializeDojo FS.empty stdin now).1 ["cli_basics"] t1 t2).2.code = 2 ∧
    (loadClaudeIntegration
      (learnCmd (initializeDojo FS.empty stdin now).1 ["cli_basics"] t1 t2).1).1.LessonContext
      = ⟨some "cli_basics", none, 0, 0, none⟩ :=
  ⟨rfl, rfl, rfl⟩

/-- C8: failure paths change nothing. (i) When the progress file is absent or
cannot be decoded (`loadProgress` returns an error), `start` and `learn t`
return normally with the state unchanged. (ii) When the progress document
loads and the topic, looked up as given, is not a key of the foundations map
or names a foundation with status `locked`, `learn t` returns normally with
the state unchanged: both documents and the events directory are as before. -/
theorem C8_failure_paths_write_nothing (fs : FS) (t : String) (t1 t2 t3 : Time) :
    ((loadProgress fs).2 = true →
      startSession fs t1 t2 t3 = (fs, .success) ∧ startLesson fs t t1 t2 = (fs, .success)) ∧
    ((loadProgress fs).2 = false →
      (mapIndex (loadProgress fs).1.Foundations t = none ∨
        ∃ f, mapIndex (loadProgress fs).1.Foundations t = some f ∧ f.Status = "locked") →
      startLesson fs t t1 t2 = (fs, .success)) := by
  rcases hl : loadProgress fs with ⟨p, e⟩
  refine ⟨fun he => ?_, fun he ht => ?_⟩
  · simp only at he
    subst he
    simp [startSession, startLesson, hl]
  · simp only at he ht
    subst he
    rcases ht with h | ⟨f, h1, h2⟩
    · simp [startLesson, hl, h]
    · simp [startLesson, hl, h1, h2]

/-- Witness for C8: `start` and `learn` on an empty directory; `learn
version_control` (locked) after `init`. -/
theorem C8_failure_paths_write_nothing_witness :
    ((loadProgress FS.empty).2 = true ∧
      startSession FS.empty jan1 jan1 jan1 =
        (FS.empty, .success) ∧
      startLesson FS.empty "cli-basics" jan1 jan1 =
        (FS.empty, .success)) ∧
    ((loadProgress (initializeDojo FS.empty "Ada\n" jan1).1).2 = false ∧
      startLesson (initializeDojo FS.empty "Ada\n" jan1).1 "version_control"
          jan1 jan1 =
        ((initializeDojo FS.empty "Ada\n" jan1).1, .success)) :=
  ⟨⟨by decide,
      (C8_failure_paths_write_nothing FS.empty "cli-basics" jan1 jan1
        jan1).1 (by decide)⟩,
    ⟨by decide,
      (C8_failure_paths_write_nothing (initializeDojo FS.empty "Ada\n" jan1).1
        "version_control" jan1 jan1 jan1).2 (by decide)
        (Or.inr ⟨⟨"locked", 0, 8, 0⟩, by decide, by decide⟩)⟩⟩


/-! ## Decoded values are well-formed -/

theorem foldl_inv {α β : Type} (P : α → Prop) (f : α → β → α)
    (hf : ∀ a x, P a → P (f a x)) (l : List β) (a : α) (ha : P a) : P (l.foldl f a) := by
  induction l generalizing a with
  | nil => exact ha
  | cons x t ih => exact ih (f a x) (hf a x ha)

theorem fitsInt_storeInt (cur : Int) (j : Json) (h : fitsInt cur = true) :
    fitsInt (storeInt cur j).1 = true := by
  unfold storeInt
  split
  · split <;> simp [*]
  · exact h
  · exact h

theorem stepUser_WF (acc : ProgressUser × Bool) (kv : String × Json) (h : acc.1.WF = true) :
    (stepUser acc kv).1.WF = true := by
  simp only [ProgressUser.WF, Bool.and_eq_true] at h ⊢
  unfold stepUser
  split <;> simp [h.1, h.2, fitsInt_storeInt]

theorem storeUser_WF (cur : ProgressUser) (j : Json) (h : cur.WF = true) :
    (storeUser cur j).1.WF = true := by
  unfold storeUser
  split
  · exact foldl_inv (fun a => a.1.WF = true) stepUser stepUser_WF _ (cur, false) h
  · exact h
  · exact h

theorem stepFoundation_WF (acc : Foundation × Bool) (kv : String × Json) (h : acc.1.WF = true) :
    (stepFoundation acc kv).1.WF = true := by
  simp only [Foundation.WF, Bool.and_eq_true] at h ⊢
  unfold stepFoundation
  split <;> simp [h.1.1, h.1.2, h.2, fitsInt_storeInt]

theorem storeFoundation_WF (cur : Foundation) (j : Json) (h : cur.WF = true) :
    (storeFoundation cur j).1.WF = true := by
  unfold storeFoundation
  split
  · exact foldl_inv (fun a => a.1.WF = true) stepFoundation stepFoundation_WF _ (cur, false) h
  · exact h
  · exact h

theorem mem_mapSet {V : Type} (m : List (String × V)) (k : String) (v : V) (x : String × V)
    (h : x ∈ mapSet m k v) : x = (k, v) ∨ x ∈ m := by
  induction m with
  | nil => simpa [mapSet] using h
  | cons a t ih =>
    obtain ⟨k', v'⟩ := a
    unfold mapSet at h
    split at h
    · simp only [List.mem_cons] at h ⊢
      tauto
    · split at h
      · simp only [List.mem_cons] at h ⊢
        tauto
      · simp only [List.mem_cons] at h ⊢
        rcases h with h | h
        · exact Or.inr (Or.inl h)
        · rcases ih h with h | h
          · exact Or.inl h
          · exact Or.inr (Or.inr h)

theorem keyLt_trans (a b c : String) (h1 : keyLt a b = true) (h2 : keyLt b c = true) :
    keyLt a c = true :=
  (keyLt_iff a c).2 (lt_trans ((keyLt_iff a b).1 h1) ((keyLt_iff b c).1 h2))

theorem keyLt_of_not (a b : String) (h1 : ¬ a = b) (h2 : ¬ keyLt a b = true) :
    keyLt b a = true := by
  rw [keyLt_iff] at h2 ⊢
  rcases lt_trichotomy a b with h | h | h
  · exact absurd h h2
  · exact absurd h h1
  · exact h

/-- Map assignment keeps the keys in strictly increasing order. -/
theorem sortedKeys_mapSet {V : Type} (m : List (String × V)) (k : String) (v : V)
    (h : sortedKeys m = true) : sortedKeys (mapSet m k v) = true := by
  induction m with
  | nil => simp [mapSet, sortedKeys]
  | cons a t ih =>
    obtain ⟨k', v'⟩ := a
    simp only [sortedKeys, Bool.and_eq_true, List.all_eq_true] at h
    unfold mapSet
    split
    · rename_i hk
      subst hk
      simp only [sortedKeys, Bool.and_eq_true, List.all_eq_true]
      exact h
    · rename_i hk
      split
      · rename_i hlt
        simp only [sortedKeys, Bool.and_eq_true, List.all_eq_true, List.mem_cons]
        refine ⟨?_, h⟩
        rintro x (rfl | hx)
        · exact hlt
        · exact keyLt_trans _ _ _ hlt (h.1 x hx)
      · rename_i hlt
        simp only [sortedKeys, Bool.and_eq_true, List.all_eq_true]
        refine ⟨?_, ih h.2⟩
        intro x hx
        rcases mem_mapSet t k v x hx with rfl | hx
        · exact keyLt_of_not _ _ hk hlt
        · exact h.1 x hx

theorem stepFoundations_WF (acc : List (String × Foundation) × Bool) (kv : String × Json)
    (h : sortedKeys acc.1 = true ∧ ∀ x ∈ acc.1, x.2.WF = true) :
    sortedKeys (stepFoundations acc kv).1 = true ∧
      ∀ x ∈ (stepFoundations acc kv).1, x.2.WF = true := by
  simp only [stepFoundations]
  refine ⟨sortedKeys_mapSet _ _ _ h.1, ?_⟩
  intro x hx
  rcases mem_mapSet _ _ _ _ hx with rfl | hx
  · exact storeFoundation_WF _ _ rfl
  · exact h.2 x hx

/-- Well-formedness of a foundations map, nil or not. -/
theorem storeFoundations_WF (cur : Option (List (String × Foundation))) (j : Json)
    (h : ∀ l, cur = some l → sortedKeys l = true ∧ ∀ x ∈ l, x.2.WF = true) :
    ∀ l, (storeFoundations cur j).1 = some l →
      sortedKeys l = true ∧ ∀ x ∈ l, x.2.WF = true := by
  unfold storeFoundations
  split
  · intro l hl; cases hl
  · rename_i kvs
    intro l hl
    simp only [Option.some.injEq] at hl
    subst hl
    refine foldl_inv (fun a => sortedKeys a.1 = true ∧ ∀ x ∈ a.1, x.2.WF = true)
      stepFoundations stepFoundations_WF kvs _ ?_
    cases cur with
    | none => simp [sortedKeys]
    | some l0 => exact h l0 rfl
  · exact h

theorem progress_WF_iff (p : Progress) :
    p.WF = true ↔ p.User.WF = true ∧
      ∀ l, p.Foundations = some l → sortedKeys l = true ∧ ∀ x ∈ l, x.2.WF = true := by
  unfold Progress.WF
  cases p.Foundations with
  | none => simp
  | some l => simp

theorem stepProgress_WF (acc : Progress × Bool) (kv : String × Json) (h : acc.1.WF = true) :
    (stepProgress acc kv).1.WF = true := by
  rw [progress_WF_iff] at h ⊢
  unfold stepProgress
  split
  · exact ⟨storeUser_WF _ _ h.1, h.2⟩
  · exact ⟨h.1, storeFoundations_WF _ _ h.2⟩
  · exact h
  · exact h
  · exact h
  · exact h

theorem storeProgress_WF (cur : Progress) (j : Json) (h : cur.WF = true) :
    (storeProgress cur j).1.WF = true := by
  unfold storeProgress
  split
  · exact foldl_inv (fun a => a.1.WF = true) stepProgress stepProgress_WF _ (cur, false) h
  · exact h
  · exact h

/-- Whatever `loadProgress` returns is a well-formed Progress value. -/
theorem loadProgress_WF (fs : FS) : (loadProgress fs).1.WF = true := by
  unfold loadProgress
  cases fs.ReadFile ProgressFile with
  | none => rfl
  | some data =>
    cases data with
    | invalid b => rfl
    | doc j => exact storeProgress_WF _ j rfl


/-! ## Lemmas on `startSession` -/

theorem eventFile_ne_ProgressFile (t : Time) : eventFile t ≠ ProgressFile := by
  simp [eventFile, EventsDir, ProgressFile]

theorem eventFile_ne_ClaudeFile (t : Time) : eventFile t ≠ ClaudeFile := by
  simp [eventFile, EventsDir, ClaudeFile]

theorem ProgressFile_ne_ClaudeFile : ProgressFile ≠ ClaudeFile := by decide

theorem wrapInt_succ (n : Int) (h1 : minInt ≤ n) (h2 : n < maxInt) : wrapInt (n + 1) = n + 1 := by
  unfold wrapInt
  unfold minInt at h1
  unfold maxInt at h2
  omega

theorem fitsInt_iff (n : Int) : fitsInt n = true ↔ minInt ≤ n ∧ n ≤ maxInt := by
  simp [fitsInt]

theorem startSession_loaded (fs : FS) (p : Progress) (t1 t2 t3 : Time)
    (h : loadProgress fs = (p, false)) :
    startSession fs t1 t2 t3 =
      (logEvent
        (saveProgress (saveClaudeIntegration fs (sessionDocument t1)).1 (bumpSessions p)).1 t3
        (sessionEvent (bumpSessions p) t2), .success) := by
  simp [startSession, h, bumpSessions]


theorem logEvent_ReadFile_ne (fs : FS) (t : Time) (event : List (String × GoAny)) (q : Path)
    (h : q ≠ eventFile t) : (logEvent fs t event).ReadFile q = fs.ReadFile q := by
  unfold logEvent
  simp only
  split
  · rfl
  · exact ReadFile_WriteFile_ne _ _ _ _ h

theorem logEvent_canWrite (fs : FS) (t : Time) (event : List (String × GoAny)) (q : Path) :
    (logEvent fs t event).canWrite q = fs.canWrite q := by
  unfold logEvent
  simp only
  split
  · rfl
  · exact WriteFile_canWrite _ _ _ _

theorem logEvent_dirs (fs : FS) (t : Time) (event : List (String × GoAny)) :
    (logEvent fs t event).dirs = fs.dirs := by
  unfold logEvent
  simp only
  split
  · rfl
  · exact WriteFile_dirs _ _ _

theorem saveClaudeIntegration_ReadFile_ne (fs : FS) (c : ClaudeIntegration) (q : Path)
    (h : q ≠ ClaudeFile) : (saveClaudeIntegration fs c).1.ReadFile q = fs.ReadFile q := by
  unfold saveClaudeIntegration
  split
  · rfl
  · exact ReadFile_WriteFile_ne _ _ _ _ h

theorem saveClaudeIntegration_canWrite (fs : FS) (c : ClaudeIntegration) (q : Path) :
    (saveClaudeIntegration fs c).1.canWrite q = fs.canWrite q := by
  unfold saveClaudeIntegration
  split
  · rfl
  · exact WriteFile_canWrite _ _ _ _

theorem saveClaudeIntegration_dirs (fs : FS) (c : ClaudeIntegration) :
    (saveClaudeIntegration fs c).1.dirs = fs.dirs := by
  unfold saveClaudeIntegration
  split
  · rfl
  · exact WriteFile_dirs _ _ _

/-- A document that can be encoded is written when the file can be. -/
theorem saveClaudeIntegration_some (fs : FS) (c : ClaudeIntegration) (data : Json)
    (hm : marshalClaude c = some data) :
    saveClaudeIntegration fs c = fs.WriteFile ClaudeFile (.doc data) := by
  simp only [saveClaudeIntegration, hm]

/-- The encoding of a document without event log. -/
theorem marshalClaude_noLog (c : ClaudeIntegration) (h : c.EventLog = none) :
    marshalClaude c =
      some (.obj [("session", marshalSession c.Session),
        ("user_state", marshalUserState c.UserState),
        ("claude_behavior", marshalBehavior c.ClaudeBehavior),
        ("lesson_context", marshalLessonContext c.LessonContext),
        ("event_log", .null)]) := by
  simp only [marshalClaude, h, marshalEventLog]

theorem startSession_ReadFile_Claude (fs : FS) (p : Progress) (t1 t2 t3 : Time) (data : Json)
    (h : loadProgress fs = (p, false)) (hw : fs.canWrite ClaudeFile = true)
    (hm : marshalClaude (sessionDocument t1) = some data) :
    (startSession fs t1 t2 t3).1.ReadFile ClaudeFile = some (.doc data) := by
  rw [startSession_loaded fs p t1 t2 t3 h]
  simp only [saveProgress]
  rw [logEvent_ReadFile_ne _ _ _ _ (eventFile_ne_ClaudeFile t3).symm,
    ReadFile_WriteFile_ne _ _ _ _ ProgressFile_ne_ClaudeFile.symm,
    saveClaudeIntegration_some _ _ _ hm, ReadFile_WriteFile_self _ _ _ hw]

theorem startSession_ReadFile_Progress (fs : FS) (p : Progress) (t1 t2 t3 : Time)
    (h : loadProgress fs = (p, false)) (hw : fs.canWrite ProgressFile = true) :
    (startSession fs t1 t2 t3).1.ReadFile ProgressFile =
      some (.doc (marshalProgress (bumpSessions p))) := by
  rw [startSession_loaded fs p t1 t2 t3 h]
  simp only [saveProgress]
  rw [logEvent_ReadFile_ne _ _ _ _ (eventFile_ne_ProgressFile t3).symm,
    ReadFile_WriteFile_self _ _ _ (by rw [saveClaudeIntegration_canWrite]; exact hw)]

theorem startSession_canWrite (fs : FS) (t1 t2 t3 : Time) (q : Path) :
    (startSession fs t1 t2 t3).1.canWrite q = fs.canWrite q := by
  rcases h : loadProgress fs with ⟨p, e⟩
  cases e with
  | true => simp [startSession, h]
  | false =>
    rw [startSession_loaded fs p t1 t2 t3 h]
    simp only [saveProgress, logEvent_canWrite, WriteFile_canWrite,
      saveClaudeIntegration_canWrite]

theorem bumpSessions_WF (p : Progress) (h : p.WF = true)
    (h2 : p.User.TotalSessions < maxInt) : (bumpSessions p).WF = true := by
  rw [progress_WF_iff] at h ⊢
  refine ⟨?_, h.2⟩
  have hu := h.1
  simp only [ProgressUser.WF, Bool.and_eq_true, fitsInt_iff] at hu
  simp only [bumpSessions, ProgressUser.WF, Bool.and_eq_true, fitsInt_iff,
    wrapInt_succ _ hu.1.1 h2]
  refine ⟨⟨?_, ?_⟩, hu.2⟩
  · have := hu.1.1; omega
  · omega

/-- One `start` on a loadable, writable progress file whose counter is below
the largest `int`: the progress file then loads as the old value with the
counter incremented. -/
theorem loadProgress_startSession (fs : FS) (p : Progress) (t1 t2 t3 : Time)
    (h : loadProgress fs = (p, false)) (hw : fs.canWrite ProgressFile = true)
    (h2 : p.User.TotalSessions < maxInt) :
    loadProgress (startSession fs t1 t2 t3).1 =
      ({ p with User := { p.User with TotalSessions := p.User.TotalSessions + 1 } }, false) := by
  have hwf : p.WF = true := by
    have := loadProgress_WF fs
    rw [h] at this; exact this
  have hu : minInt ≤ p.User.TotalSessions := by
    rw [progress_WF_iff] at hwf
    have := hwf.1
    simp only [ProgressUser.WF, Bool.and_eq_true, fitsInt_iff] at this
    exact this.1.1
  have := loadProgress_of_file _ (bumpSessions p)
    (startSession_ReadFile_Progress fs p t1 t2 t3 h hw) (bumpSessions_WF p hwf h2)
  rw [this]
  simp only [bumpSessions, wrapInt_succ _ hu h2]

/-- After `n` further sessions the counter has grown by `n`. -/
theorem loadProgress_startSessions (ts : List (Time × Time × Time)) (fs : FS) (p : Progress)
    (h : loadProgress fs = (p, false)) (hw : fs.canWrite ProgressFile = true)
    (h2 : p.User.TotalSessions + ts.length ≤ maxInt) :
    loadProgress (startSessions fs ts) =
      ({ p with User := { p.User with TotalSessions := p.User.TotalSessions + ts.length } },
        false) := by
  induction ts generalizing fs p with
  | nil => simpa [startSessions] using h
  | cons t rest ih =>
    obtain ⟨t1, t2, t3⟩ := t
    simp only [List.length_cons, Nat.cast_add, Nat.cast_one] at h2
    have hlt : p.User.TotalSessions < maxInt := by omega
    have h1 := loadProgress_startSession fs p t1 t2 t3 h hw hlt
    have := ih (startSession fs t1 t2 t3).1 _ h1
      (by rw [startSession_canWrite]; exact hw) (by simp only; omega)
    simp only [startSessions, this, List.length_cons, Nat.cast_add, Nat.cast_one]
    congr 3
    omega


theorem startSessions_canWrite (ts : List (Time × Time × Time)) (fs : FS) (q : Path) :
    (startSessions fs ts).canWrite q = fs.canWrite q := by
  induction ts generalizing fs with
  | nil => rfl
  | cons t rest ih =>
    obtain ⟨t1, t2, t3⟩ := t
    simp only [startSessions, ih, startSession_canWrite]

/-- C3: after `init` on an empty directory followed by `N` calls of `start`
(`N` representable as an `int`), the stored Progress document loads with
`user.total_sessions = N` and every other field as `init` wrote it, and the
files a further `start` writes can still be written. Each call of
`startSession` on a loadable progress document (counter below the largest
`int`, the three writes succeeding) stores the loaded document with
`total_sessions` increased by exactly 1 and every other field unchanged, and
changes the regular files by exactly three writes: the assistant-integration
document, the progress document and one event file, whose `type` is
`session_start` and whose `user` and `level` are the progress document's
`user.name` and `user.current_level`. -/
theorem C3_start_counts_sessions (stdin : String) (now : Time)
    (ts : List (Time × Time × Time)) (fs : FS) (t1 t2 t3 : Time) :
    ((ts.length : Int) ≤ maxInt →
      loadProgress (startSessions (initializeDojo FS.empty stdin now).1 ts) =
        ({ initialProgress (Scanln stdin) now with
            User := ⟨Scanln stdin, now.date, "dirt_claude", ts.length, 0⟩ }, false) ∧
      (startSessions (initializeDojo FS.empty stdin now).1 ts).canWrite ClaudeFile = true ∧
      (startSessions (initializeDojo FS.empty stdin now).1 ts).canWrite ProgressFile = true ∧
      (startSessions (initializeDojo FS.empty stdin now).1 ts).canWrite (eventFile t3) = true) ∧
    ((loadProgress fs).2 = false → (loadProgress fs).1.User.TotalSessions < maxInt →
      fs.canWrite ClaudeFile = true → fs.canWrite ProgressFile = true →
      fs.canWrite (eventFile t3) = true →
      loadProgress (startSession fs t1 t2 t3).1 =
        ({ (loadProgress fs).1 with
            User := { (loadProgress fs).1.User with
              TotalSessions := (loadProgress fs).1.User.TotalSessions + 1 } }, false) ∧
      (startSession fs t1 t2 t3).1.dirs = fs.dirs ∧
      ∃ data, marshalClaude (sessionDocument t1) = some data ∧
      (startSession fs t1 t2 t3).1.files =
        setFile
          (setFile
            (setFile fs.files ClaudeFile (.doc data))
            ProgressFile
            (.doc (marshalProgress
              { (loadProgress fs).1 with
                User := { (loadProgress fs).1.User with
                  TotalSessions := (loadProgress fs).1.User.TotalSessions + 1 } })))
          (eventFile t3)
          (.doc (.obj [("level", .str (loadProgress fs).1.User.CurrentLevel),
            ("message", .str "User started training session"),
            ("timestamp", .str t2.rfc3339), ("type", .str "session_start"),
            ("user", .str (loadProgress fs).1.User.Name)]))) := by
  constructor
  · intro hN
    refine ⟨?_, ?_, ?_, ?_⟩
    · have h0 : loadProgress (initializeDojo FS.empty stdin now).1 =
          (initialProgress (Scanln stdin) now, false) := rfl
      have := loadProgress_startSessions ts _ _ h0 rfl
        (by
          have : (initialProgress (Scanln stdin) now).User.TotalSessions = 0 := rfl
          rw [this]; omega)
      rw [this]
      have h1 : (initialProgress (Scanln stdin) now).User.TotalSessions + (ts.length : Int) =
          ts.length := by
        have : (initialProgress (Scanln stdin) now).User.TotalSessions = 0 := rfl
        rw [this]; omega
      rw [h1]
      rfl
    · rw [startSessions_canWrite]; rfl
    · rw [startSessions_canWrite]; rfl
    · rw [startSessions_canWrite]; rfl
  · intro he hlt hwc hwp hwe
    rcases hl : loadProgress fs with ⟨p, e⟩
    rw [hl] at he hlt
    simp only at he hlt
    subst he
    have hwf : p.WF = true := by
      have := loadProgress_WF fs
      rw [hl] at this; exact this
    have hu : minInt ≤ p.User.TotalSessions := by
      rw [progress_WF_iff] at hwf
      have := hwf.1
      simp only [ProgressUser.WF, Bool.and_eq_true, fitsInt_iff] at this
      exact this.1.1
    have hm := marshalClaude_noLog (sessionDocument t1) rfl
    have hev : marshalAny (.map (sessionEvent (bumpSessions p) t2)) =
        some (.obj [("level", .str p.User.CurrentLevel),
          ("message", .str "User started training session"),
          ("timestamp", .str t2.rfc3339), ("type", .str "session_start"),
          ("user", .str p.User.Name)]) := rfl
    refine ⟨loadProgress_startSession fs p t1 t2 t3 hl hwp hlt, ?_, _, hm, ?_⟩
    · rw [startSession_loaded fs p t1 t2 t3 hl]
      simp only [saveProgress, logEvent_dirs, WriteFile_dirs, saveClaudeIntegration_dirs]
    · rw [startSession_loaded fs p t1 t2 t3 hl]
      simp only [logEvent, hev, saveProgress, saveClaudeIntegration_some _ _ _ hm]
      rw [WriteFile_files _ _ _ (by simpa only [WriteFile_canWrite] using hwe),
        WriteFile_files _ _ _ (by simpa only [WriteFile_canWrite] using hwp),
        WriteFile_files _ _ _ hwc]
      simp only [bumpSessions, wrapInt_succ _ hu hlt]

/-- Witness for C3: two sessions after `init` with the name `Ada`, and one
session on the state `init` leaves. -/
theorem C3_start_counts_sessions_witness :
    (((([(jan2,
          jan2,
          jan2),
        (jan3,
          jan3,
          jan3)] :
        List (Time × Time × Time)).length : Nat) : Int) ≤ maxInt) ∧
    (loadProgress (startSessions
      (initializeDojo FS.empty "Ada\n"
        jan1).1
      [(jan2,
          jan2,
          jan2),
        (jan3,
          jan3,
          jan3)])).1.User.TotalSessions
      = 2 ∧
    (loadProgress (startSession
      (initializeDojo FS.empty "Ada\n"
        jan1).1
      jan2
      jan2
      jan2).1).1.User.TotalSessions
      = 1 := by
  have h := C3_start_counts_sessions "Ada\n"
    jan1
    [(jan2,
        jan2,
        jan2),
      (jan3,
        jan3,
        jan3)]
    (initializeDojo FS.empty "Ada\n"
      jan1).1
    jan2
    jan2
    jan2
  refine ⟨by decide, ?_, ?_⟩
  · rw [(h.1 (by decide)).1]; rfl
  · rw [(h.2 (by decide) (by decide) (by decide) (by decide) (by decide)).1]; rfl


/-- C9: `start` discards prior session state. For every two states with a
loadable progress document and a writable assistant-integration file, whatever
that file held before (or whether it existed), the assistant-integration file
after `startSession` at clock reading `T` holds the same document in both,
namely the zero value with only `session.active = true`,
`session.start_time = T`, `session.learning_mode = "practice"`,
`claude_behavior.teaching_style = "socratic"`,
`claude_behavior.intervention_threshold = 3` and
`claude_behavior.hint_level = 1` set; it loads back without error as that
value, so no field of a previous document survives. -/
theorem C9_start_discards_prior_state (fs fs' : FS) (T t2 t3 u2 u3 : Time)
    (h : (loadProgress fs).2 = false) (h' : (loadProgress fs').2 = false)
    (hw : fs.canWrite ClaudeFile = true) (hw' : fs'.canWrite ClaudeFile = true) :
    (∃ data,
      marshalClaude
        ⟨⟨true, some T.rfc3339, none, none, "practice"⟩, ⟨none, none, 0, false, 0⟩,
          ⟨"socratic", 3, none, 1⟩, ⟨none, none, 0, 0, none⟩, none⟩ = some data ∧
      (startSession fs T t2 t3).1.ReadFile ClaudeFile = some (.doc data)) ∧
    (startSession fs' T u2 u3).1.ReadFile ClaudeFile =
      (startSession fs T t2 t3).1.ReadFile ClaudeFile ∧
    (loadClaudeIntegration (startSession fs T t2 t3).1).2 = false ∧
    (loadClaudeIntegration (startSession fs T t2 t3).1).1.Session =
      ⟨true, some T.rfc3339, none, none, "practice"⟩ ∧
    (loadClaudeIntegration (startSession fs T t2 t3).1).1.UserState =
      ⟨none, none, 0, false, 0⟩ ∧
    (loadClaudeIntegration (startSession fs T t2 t3).1).1.ClaudeBehavior =
      ⟨"socratic", 3, none, 1⟩ ∧
    (loadClaudeIntegration (startSession fs T t2 t3).1).1.LessonContext =
      ⟨none, none, 0, 0, none⟩ ∧
    (loadClaudeIntegration (startSession fs T t2 t3).1).1.EventLog = none := by
  rcases hl : loadProgress fs with ⟨p, e⟩
  rcases hl' : loadProgress fs' with ⟨p', e'⟩
  rw [hl] at h
  rw [hl'] at h'
  simp only at h h'
  subst h
  subst h'
  have hm := marshalClaude_noLog (sessionDocument T) rfl
  have h1 := startSession_ReadFile_Claude fs p T t2 t3 _ hl hw hm
  have h2 := startSession_ReadFile_Claude fs' p' T u2 u3 _ hl' hw' hm
  have hload : loadClaudeIntegration (startSession fs T t2 t3).1 =
      (⟨⟨true, some T.rfc3339, none, none, "practice"⟩, ⟨none, none, 0, false, 0⟩,
          ⟨"socratic", 3, none, 1⟩, ⟨none, none, 0, 0, none⟩, none⟩, false) := by
    simp only [loadClaudeIntegration, h1]
    rfl
  refine ⟨⟨_, hm, h1⟩, h2.trans h1.symm, ?_, ?_, ?_, ?_, ?_, ?_⟩ <;> rw [hload]

/-- Witness for C9: `start` after `init`, with no assistant-integration file,
and `start` after `init` and a first `start`, which left one. -/
theorem C9_start_discards_prior_state_witness :
    (loadProgress (initializeDojo FS.empty "Ada\n"
      jan1).1).2 = false ∧
    (startSession
      (startSession
        (initializeDojo FS.empty "Ada\n"
          jan1).1
        jan2
        jan2
        jan2).1
      jan3
      jan3
      jan3).1.ReadFile ClaudeFile =
    (startSession
      (initializeDojo FS.empty "Ada\n"
        jan1).1
      jan3
      jan3
      jan3).1.ReadFile ClaudeFile :=
  ⟨by decide,
    (C9_start_discards_prior_state
      (initializeDojo FS.empty "Ada\n"
        jan1).1
      (startSession
        (initializeDojo FS.empty "Ada\n"
          jan1).1
        jan2
        jan2
        jan2).1
      jan3
      jan3
      jan3
      jan3
      jan3
      (by decide) (by decide) (by decide) (by decide)).2.1⟩

/-! ## Round trip of the assistant-integration document -/

/-- Assigning the entries of a strictly sorted list, in order, after a list of
smaller keys rebuilds the list. -/
theorem foldl_mapSet_sorted {V : Type} (l acc : List (String × V))
    (h : sortedKeys (acc ++ l) = true) :
    l.foldl (fun m kv => mapSet m kv.1 kv.2) acc = acc ++ l := by
  induction l generalizing acc with
  | nil => simp
  | cons a t ih =>
    obtain ⟨k, v⟩ := a
    have hacc : ∀ x ∈ acc, keyLt x.1 k = true := fun x hx =>
      ((sortedKeys_append acc ((k, v) :: t)).1 h).2.2 x hx (k, v) (by simp)
    simp only [List.foldl_cons, mapSet_above acc k v hacc]
    rw [ih (acc ++ [(k, v)]) (by simpa using h)]
    simp

theorem mapLit_sorted {V : Type} (l : List (String × V)) (h : sortedKeys l = true) :
    mapLit l = l := by
  have := foldl_mapSet_sorted l [] (by simpa using h)
  simpa [mapLit] using this

mutual
theorem unmarshalAny_marshalAny :
    ∀ v : GoAny, v.native = true → ∃ j, marshalAny v = some j ∧ unmarshalAny j = (v, false)
  | .nil, _ => ⟨_, rfl, rfl⟩
  | .bool _, _ => ⟨_, rfl, rfl⟩
  | .int _, h => by simp [GoAny.native] at h
  | .float64 x, h => by
    cases x with
    | nan => simp [GoAny.native, F64.finite] at h
    | inf neg => simp [GoAny.native, F64.finite] at h
    | fin neg m q =>
      simp only [GoAny.native, F64.finite, Bool.true_and] at h
      obtain ⟨lit, h1, h2⟩ := parseFloat_formatFloat neg m q h
      exact ⟨.num lit, by simp only [marshalAny, h1], by simp only [unmarshalAny, h2]⟩
  | .str _, _ => ⟨_, rfl, rfl⟩
  | .nilSlice, h => by simp [GoAny.native] at h
  | .slice xs, h => by
    simp only [GoAny.native] at h
    obtain ⟨js, h1, h2⟩ := unmarshalAnyList_marshalAnyList xs h
    exact ⟨.arr js, by simp only [marshalAny, h1], by simp only [unmarshalAny, h2]⟩
  | .nilMap, h => by simp [GoAny.native] at h
  | .map kvs, h => by
    simp only [GoAny.native, Bool.and_eq_true] at h
    obtain ⟨fields, h1, h2⟩ := unmarshalAnyFields_marshalAnyFields kvs h.2
    exact ⟨.obj fields, by simp only [marshalAny, h1],
      by simp only [unmarshalAny, h2, mapLit_sorted kvs h.1]⟩
theorem unmarshalAnyList_marshalAnyList :
    ∀ xs : List GoAny, nativeList xs = true →
      ∃ js, marshalAnyList xs = some js ∧ unmarshalAnyList js = (xs, false)
  | [], _ => ⟨_, rfl, rfl⟩
  | x :: xs, h => by
    simp only [nativeList, Bool.and_eq_true] at h
    obtain ⟨j, h1, h2⟩ := unmarshalAny_marshalAny x h.1
    obtain ⟨js, h3, h4⟩ := unmarshalAnyList_marshalAnyList xs h.2
    exact ⟨j :: js, by simp only [marshalAnyList, h1, h3],
      by simp only [unmarshalAnyList, h2, h4, Bool.or_false]⟩
theorem unmarshalAnyFields_marshalAnyFields :
    ∀ kvs : List (String × GoAny), nativeFields kvs = true →
      ∃ fields, marshalAnyFields kvs = some fields ∧ unmarshalAnyFields fields = (kvs, false)
  | [], _ => ⟨_, rfl, rfl⟩
  | (k, v) :: r, h => by
    simp only [nativeFields, Bool.and_eq_true] at h
    obtain ⟨j, h1, h2⟩ := unmarshalAny_marshalAny v h.1
    obtain ⟨fields, h3, h4⟩ := unmarshalAnyFields_marshalAnyFields r h.2
    exact ⟨(k, j) :: fields, by simp only [marshalAnyFields, h1, h3],
      by simp only [unmarshalAnyFields, h2, h4, Bool.or_false]⟩
end

theorem storeAnyMap_marshal (m : Option (List (String × GoAny))) (h : nativeEntry m = true) :
    ∃ j, marshalAnyMap m = some j ∧ storeAnyMap none j = (m, false) := by
  cases m with
  | none => exact ⟨_, rfl, rfl⟩
  | some l =>
    simp only [nativeEntry, Bool.and_eq_true] at h
    obtain ⟨fields, h1, h2⟩ := unmarshalAnyFields_marshalAnyFields l h.2
    refine ⟨.obj fields, by simp only [marshalAnyMap, h1], ?_⟩
    have := mapLit_sorted l h.1
    simp only [mapLit] at this
    simp only [storeAnyMap, h2, Option.getD_none, this]

theorem storeElems_marshalEntries (ms : List (Option (List (String × GoAny))))
    (h : ms.all nativeEntry = true) :
    ∃ js, marshalEntries ms = some js ∧
      storeElems storeAnyMap none [] js = ms.map fun m => (m, false) := by
  induction ms with
  | nil => exact ⟨_, rfl, rfl⟩
  | cons a t ih =>
    simp only [List.all_cons, Bool.and_eq_true] at h
    obtain ⟨j, h1, h2⟩ := storeAnyMap_marshal a h.1
    obtain ⟨js, h3, h4⟩ := ih h.2
    exact ⟨j :: js, by simp only [marshalEntries, h1, h3],
      by simp only [storeElems, h2, h4, List.map_cons]⟩

theorem storeEventLog_marshal (l : Option (List (Option (List (String × GoAny)))))
    (h : ∀ ms, l = some ms → ms.all nativeEntry = true) :
    ∃ j, marshalEventLog l = some j ∧ storeEventLog none j = (l, false) := by
  cases l with
  | none => exact ⟨_, rfl, rfl⟩
  | some ms =>
    obtain ⟨js, h1, h2⟩ := storeElems_marshalEntries ms (h ms rfl)
    refine ⟨.arr js, by simp only [marshalEventLog, h1], ?_⟩
    simp only [storeEventLog, Option.getD_none, h2, map_fst_ok, any_snd_ok]

theorem storeSession_marshal (s : ClaudeSession) :
    storeSession ClaudeSession.zero (marshalSession s) = (s, false) := by
  simp [marshalSession, storeSession, stepSession, foldName, foldChar, storeString, storeBool,
    storeStringPtr_marshal]

theorem storeUserState_marshal (u : ClaudeUserState)
    (h1 : fitsInt u.ConsecutiveFailures = true) (h2 : fitsInt u.AskForHelpCount = true) :
    storeUserState ClaudeUserState.zero (marshalUserState u) = (u, false) := by
  simp [marshalUserState, storeUserState, stepUserState, foldName, foldChar,
    storeBool, storeStringPtr_marshal, storeInt_marshalInt _ _ h1, storeInt_marshalInt _ _ h2]

theorem storeBehavior_marshal (b : ClaudeBehavior)
    (h1 : fitsInt b.InterventionThreshold = true) (h2 : fitsInt b.HintLevel = true) :
    storeBehavior ClaudeBehavior.zero (marshalBehavior b) = (b, false) := by
  simp [marshalBehavior, storeBehavior, stepBehavior, foldName, foldChar,
    storeString, storeStringPtr_marshal, storeInt_marshalInt _ _ h1, storeInt_marshalInt _ _ h2]

theorem storeLessonContext_marshal (l : ClaudeLessonContext)
    (h1 : fitsInt l.CurrentStep = true) (h2 : fitsInt l.TotalSteps = true) :
    storeLessonContext ClaudeLessonContext.zero (marshalLessonContext l) = (l, false) := by
  simp [marshalLessonContext, storeLessonContext, stepLessonContext, foldName, foldChar,
    storeStringPtr_marshal, storeStrings_marshal, storeInt_marshalInt _ _ h1,
    storeInt_marshalInt _ _ h2]

theorem claude_WF_iff (c : ClaudeIntegration) :
    c.WF = true ↔
      (fitsInt c.UserState.ConsecutiveFailures = true ∧
        fitsInt c.UserState.AskForHelpCount = true) ∧
      (fitsInt c.ClaudeBehavior.InterventionThreshold = true ∧
        fitsInt c.ClaudeBehavior.HintLevel = true) ∧
      (fitsInt c.LessonContext.CurrentStep = true ∧
        fitsInt c.LessonContext.TotalSteps = true) ∧
      ∀ ms, c.EventLog = some ms → ms.all nativeEntry = true := by
  unfold ClaudeIntegration.WF
  cases c.EventLog with
  | none => simp [and_assoc]
  | some l => simp [and_assoc]

/-- A well-formed assistant-integration document can be encoded, and decoding
the encoding gives the document back. -/
theorem storeClaude_marshal (c : ClaudeIntegration) (h : c.WF = true) :
    ∃ j, marshalClaude c = some j ∧ storeClaude ClaudeIntegration.zero j = (c, false) := by
  rw [claude_WF_iff] at h
  obtain ⟨⟨h1, h2⟩, ⟨h3, h4⟩, ⟨h5, h6⟩, h7⟩ := h
  obtain ⟨ev, e1, e2⟩ := storeEventLog_marshal c.EventLog h7
  have hm : marshalClaude c =
      some (.obj [("session", marshalSession c.Session),
        ("user_state", marshalUserState c.UserState),
        ("claude_behavior", marshalBehavior c.ClaudeBehavior),
        ("lesson_context", marshalLessonContext c.LessonContext),
        ("event_log", ev)]) := by
    simp only [marshalClaude, e1]
  refine ⟨_, hm, ?_⟩
  simp [storeClaude, stepClaude, foldName, foldChar, ClaudeIntegration.zero,
    storeSession_marshal, storeUserState_marshal _ h1 h2, storeBehavior_marshal _ h3 h4,
    storeLessonContext_marshal _ h5 h6, e2]

theorem loadClaudeIntegration_of_file (fs : FS) (c : ClaudeIntegration) (j : Json)
    (h : fs.ReadFile ClaudeFile = some (.doc j)) (hm : marshalClaude c = some j)
    (hw : c.WF = true) : loadClaudeIntegration fs = (c, false) := by
  obtain ⟨j', h1, h2⟩ := storeClaude_marshal c hw
  rw [hm] at h1
  cases h1
  simp [loadClaudeIntegration, h, unmarshalClaude, h2]

/-! ## The round-trip claim -/

/-- Decoding an encoded document whose `event_log` member is any JSON value
`ev`: the four structures come back and the event log is what `ev` decodes to. -/
theorem storeClaude_eventLog (c : ClaudeIntegration) (ev : Json)
    (l : Option (List (Option (List (String × GoAny))))) (e : Bool)
    (h1 : fitsInt c.UserState.ConsecutiveFailures = true)
    (h2 : fitsInt c.UserState.AskForHelpCount = true)
    (h3 : fitsInt c.ClaudeBehavior.InterventionThreshold = true)
    (h4 : fitsInt c.ClaudeBehavior.HintLevel = true)
    (h5 : fitsInt c.LessonContext.CurrentStep = true)
    (h6 : fitsInt c.LessonContext.TotalSteps = true)
    (hs : storeEventLog none ev = (l, e)) :
    storeClaude ClaudeIntegration.zero
        (.obj [("session", marshalSession c.Session),
          ("user_state", marshalUserState c.UserState),
          ("claude_behavior", marshalBehavior c.ClaudeBehavior),
          ("lesson_context", marshalLessonContext c.LessonContext),
          ("event_log", ev)]) =
      (⟨c.Session, c.UserState, c.ClaudeBehavior, c.LessonContext, l⟩, e) := by
  simp [storeClaude, stepClaude, foldName, foldChar, ClaudeIntegration.zero,
    storeSession_marshal, storeUserState_marshal _ h1 h2, storeBehavior_marshal _ h3 h4,
    storeLessonContext_marshal _ h5 h6, hs]

theorem parseFloat_one :
    parseFloat (.int false 1) = some (.fin false 4503599627370496 1022) := by
  have : parseMag 1 0 = some (4503599627370496, 1022) :=
    parseMag_exact 1 0 4503599627370496 1022 (by norm_num) (by norm_num) (Or.inl (by norm_num))
      (by norm_num)
  simp [parseFloat, this]

theorem loadClaudeIntegration_int_entry :
    loadClaudeIntegration (saveClaudeIntegration ⟨[[".dojo"]], []⟩
        ⟨⟨false, none, none, none, ""⟩, ⟨none, none, 0, false, 0⟩, ⟨"", 0, none, 0⟩,
          ⟨none, none, 0, 0, none⟩, some [some [("n", GoAny.int 1)]]⟩).1 =
      (⟨⟨false, none, none, none, ""⟩, ⟨none, none, 0, false, 0⟩, ⟨"", 0, none, 0⟩,
          ⟨none, none, 0, 0, none⟩,
          some [some [("n", GoAny.float64 (.fin false 4503599627370496 1022))]]⟩, false) := by
  have hs : (saveClaudeIntegration ⟨[[".dojo"]], []⟩
        ⟨⟨false, none, none, none, ""⟩, ⟨none, none, 0, false, 0⟩, ⟨"", 0, none, 0⟩,
          ⟨none, none, 0, 0, none⟩, some [some [("n", GoAny.int 1)]]⟩).1.ReadFile ClaudeFile =
      some (.doc (.obj [("session", marshalSession ⟨false, none, none, none, ""⟩),
        ("user_state", marshalUserState ⟨none, none, 0, false, 0⟩),
        ("claude_behavior", marshalBehavior ⟨"", 0, none, 0⟩),
        ("lesson_context", marshalLessonContext ⟨none, none, 0, 0, none⟩),
        ("event_log", .arr [.obj [("n", .num (.int false 1))]])])) := rfl
  have he : storeEventLog none (.arr [.obj [("n", .num (.int false 1))]]) =
      (some [some [("n", GoAny.float64 (.fin false 4503599627370496 1022))]], false) := by
    simp [storeEventLog, storeElems, storeAnyMap, unmarshalAnyFields, unmarshalAny,
      parseFloat_one, mapSet]
  simp only [loadClaudeIntegration, hs, unmarshalClaude]
  exact storeClaude_eventLog ⟨⟨false, none, none, none, ""⟩, ⟨none, none, 0, false, 0⟩,
    ⟨"", 0, none, 0⟩, ⟨none, none, 0, 0, none⟩, none⟩ _ _ _ rfl rfl rfl rfl rfl rfl he

/-- C4 (as stated, refuted), at three assistant-integration documents that
differ from the zero value only in the event log `[{"n": v}]`. With `v` the
Go `int` 1 the document is saved and loads without error, but `n` comes back
as the `float64` 1, a value of another dynamic type. With `v` the `float64`
NaN `saveClaudeIntegration` returns the encoder's error and writes nothing, so
that loading fails. With `v` a nil `[]interface{}` the document is saved and
loads without error, but `n` comes back as the nil interface. -/
theorem C4_counterexample :
    ((saveClaudeIntegration ⟨[[".dojo"]], []⟩
        ⟨⟨false, none, none, none, ""⟩, ⟨none, none, 0, false, 0⟩, ⟨"", 0, none, 0⟩,
          ⟨none, none, 0, 0, none⟩, some [some [("n", GoAny.int 1)]]⟩).2 = false ∧
      (loadClaudeIntegration (saveClaudeIntegration ⟨[[".dojo"]], []⟩
        ⟨⟨false, none, none, none, ""⟩, ⟨none, none, 0, false, 0⟩, ⟨"", 0, none, 0⟩,
          ⟨none, none, 0, 0, none⟩, some [some [("n", GoAny.int 1)]]⟩).1).2 = false ∧
      (loadClaudeIntegration (saveClaudeIntegration ⟨[[".dojo"]], []⟩
        ⟨⟨false, none, none, none, ""⟩, ⟨none, none, 0, false, 0⟩, ⟨"", 0, none, 0⟩,
          ⟨none, none, 0, 0, none⟩, some [some [("n", GoAny.int 1)]]⟩).1).1.EventLog =
        some [some [("n", GoAny.float64 (.fin false 4503599627370496 1022))]] ∧
      (loadClaudeIntegration (saveClaudeIntegration ⟨[[".dojo"]], []⟩
        ⟨⟨false, none, none, none, ""⟩, ⟨none, none, 0, false, 0⟩, ⟨"", 0, none, 0⟩,
          ⟨none, none, 0, 0, none⟩, some [some [("n", GoAny.int 1)]]⟩).1).1.EventLog ≠
        some [some [("n", GoAny.int 1)]]) ∧
    ((saveClaudeIntegration ⟨[[".dojo"]], []⟩
        ⟨⟨false, none, none, none, ""⟩, ⟨none, none, 0, false, 0⟩, ⟨"", 0, none, 0⟩,
          ⟨none, none, 0, 0, none⟩, some [some [("n", GoAny.float64 .nan)]]⟩).2 = true ∧
      (saveClaudeIntegration ⟨[[".dojo"]], []⟩
        ⟨⟨false, none, none, none, ""⟩, ⟨none, none, 0, false, 0⟩, ⟨"", 0, none, 0⟩,
          ⟨none, none, 0, 0, none⟩,
          some [some [("n", GoAny.float64 .nan)]]⟩).1.Stat ClaudeFile = false ∧
      (loadClaudeIntegration (saveClaudeIntegration ⟨[[".dojo"]], []⟩
        ⟨⟨false, none, none, none, ""⟩, ⟨none, none, 0, false, 0⟩, ⟨"", 0, none, 0⟩,
          ⟨none, none, 0, 0, none⟩, some [some [("n", GoAny.float64 .nan)]]⟩).1).2 = true) ∧
    ((saveClaudeIntegration ⟨[[".dojo"]], []⟩
        ⟨⟨false, none, none, none, ""⟩, ⟨none, none, 0, false, 0⟩, ⟨"", 0, none, 0⟩,
          ⟨none, none, 0, 0, none⟩, some [some [("n", GoAny.nilSlice)]]⟩).2 = false ∧
      (loadClaudeIntegration (saveClaudeIntegration ⟨[[".dojo"]], []⟩
        ⟨⟨false, none, none, none, ""⟩, ⟨none, none, 0, false, 0⟩, ⟨"", 0, none, 0⟩,
          ⟨none, none, 0, 0, none⟩, some [some [("n", GoAny.nilSlice)]]⟩).1).2 = false ∧
      (loadClaudeIntegration (saveClaudeIntegration ⟨[[".dojo"]], []⟩
        ⟨⟨false, none, none, none, ""⟩, ⟨none, none, 0, false, 0⟩, ⟨"", 0, none, 0⟩,
          ⟨none, none, 0, 0, none⟩, some [some [("n", GoAny.nilSlice)]]⟩).1).1.EventLog =
        some [some [("n", GoAny.nil)]] ∧
      (loadClaudeIntegration (saveClaudeIntegration ⟨[[".dojo"]], []⟩
        ⟨⟨false, none, none, none, ""⟩, ⟨none, none, 0, false, 0⟩, ⟨"", 0, none, 0⟩,
          ⟨none, none, 0, 0, none⟩, some [some [("n", GoAny.nilSlice)]]⟩).1).1.EventLog ≠
        some [some [("n", GoAny.nilSlice)]]) := by
  have h1 := loadClaudeIntegration_int_entry
  have h3 : (loadClaudeIntegration (saveClaudeIntegration ⟨[[".dojo"]], []⟩
        ⟨⟨false, none, none, none, ""⟩, ⟨none, none, 0, false, 0⟩, ⟨"", 0, none, 0⟩,
          ⟨none, none, 0, 0, none⟩, some [some [("n", GoAny.nilSlice)]]⟩).1).1.EventLog =
        some [some [("n", GoAny.nil)]] := rfl
  refine ⟨⟨rfl, ?_, ?_, ?_⟩, ⟨rfl, rfl, rfl⟩, ⟨rfl, rfl, h3, ?_⟩⟩
  · rw [h1]
  · rw [h1]
  · rw [h1]; simp
  · rw [h3]; simp

/-- C4 (amended): round trip. For every Progress value `p` (a Go value: its
integers are `int`s and its map is a map), saving it to a writable progress
file returns no error and loading then returns no error and `p`. For every
assistant-integration value `c` whose event log holds only values that are
nil, a `bool`, a `string`, a finite `float64`, or a non-nil `[]interface{}` or
non-nil `map[string]interface{}` of such values, saving it to a writable file
returns no error and loading then returns no error and `c`; absent and present
optional fields, nil and empty `[]string` slices, a nil or empty event log and
nil entries of the event log included. -/
theorem C4_round_trip (fs : FS) (p : Progress) (c : ClaudeIntegration) :
    (p.WF = true → fs.canWrite ProgressFile = true →
      (saveProgress fs p).2 = false ∧ loadProgress (saveProgress fs p).1 = (p, false)) ∧
    (c.WF = true → fs.canWrite ClaudeFile = true →
      (saveClaudeIntegration fs c).2 = false ∧
        loadClaudeIntegration (saveClaudeIntegration fs c).1 = (c, false)) := by
  constructor
  · intro hp hw
    refine ⟨by simp [saveProgress, FS.WriteFile, hw], ?_⟩
    exact loadProgress_of_file _ p (ReadFile_WriteFile_self fs _ _ hw) hp
  · intro hc hw
    obtain ⟨j, h1, _⟩ := storeClaude_marshal c hc
    rw [saveClaudeIntegration_some fs c j h1]
    refine ⟨by simp [FS.WriteFile, hw], ?_⟩
    exact loadClaudeIntegration_of_file _ c j (ReadFile_WriteFile_self fs _ _ hw) h1 hc

/-- Witness for C4: a Progress value with a two-key map, a present optional
field and an empty slice; an assistant-integration value with present optional
fields and an event log with a nil entry and an entry holding a string, the
`float64` 1.5, a nested slice and a nested map holding the `float64` -0.1. -/
theorem C4_round_trip_witness :
    Progress.WF
      ⟨⟨"Ada", "2024-01-01", "dirt_claude", 3, 0⟩,
        some [("cli_basics", ⟨"available", 2, 12, 40⟩), ("scripting", ⟨"locked", 0, 15, 0⟩)],
        some [], some "2024-01-05", ⟨"slow", none, some ["ls"]⟩⟩ = true ∧
    ClaudeIntegration.WF
      ⟨⟨true, some "2024-01-02T09:00:00Z", none, some "cli-basics", "practice"⟩,
        ⟨none, some "no such file", 2, true, 1⟩, ⟨"socratic", 3, none, 1⟩,
        ⟨some "cli-basics", none, 4, 12, some ["pwd", "ls"]⟩,
        some [none, some [("a", .str "x"), ("b", .float64 (.fin false 6755399441055744 1022)),
          ("c", .slice [.nil, .bool true, .slice []]),
          ("d", .map [("e", .float64 (.fin true 7205759403792794 1018))])]]⟩ = true ∧
    loadProgress (saveProgress ⟨[[".dojo"]], []⟩
      ⟨⟨"Ada", "2024-01-01", "dirt_claude", 3, 0⟩,
        some [("cli_basics", ⟨"available", 2, 12, 40⟩), ("scripting", ⟨"locked", 0, 15, 0⟩)],
        some [], some "2024-01-05", ⟨"slow", none, some ["ls"]⟩⟩).1 =
      (⟨⟨"Ada", "2024-01-01", "dirt_claude", 3, 0⟩,
        some [("cli_basics", ⟨"available", 2, 12, 40⟩), ("scripting", ⟨"locked", 0, 15, 0⟩)],
        some [], some "2024-01-05", ⟨"slow", none, some ["ls"]⟩⟩, false) ∧
    loadClaudeIntegration (saveClaudeIntegration ⟨[[".dojo"]], []⟩
      ⟨⟨true, some "2024-01-02T09:00:00Z", none, some "cli-basics", "practice"⟩,
        ⟨none, some "no such file", 2, true, 1⟩, ⟨"socratic", 3, none, 1⟩,
        ⟨some "cli-basics", none, 4, 12, some ["pwd", "ls"]⟩,
        some [none, some [("a", .str "x"), ("b", .float64 (.fin false 6755399441055744 1022)),
          ("c", .slice [.nil, .bool true, .slice []]),
          ("d", .map [("e", .float64 (.fin true 7205759403792794 1018))])]]⟩).1 =
      (⟨⟨true, some "2024-01-02T09:00:00Z", none, some "cli-basics", "practice"⟩,
        ⟨none, some "no such file", 2, true, 1⟩, ⟨"socratic", 3, none, 1⟩,
        ⟨some "cli-basics", none, 4, 12, some ["pwd", "ls"]⟩,
        some [none, some [("a", .str "x"), ("b", .float64 (.fin false 6755399441055744 1022)),
          ("c", .slice [.nil, .bool true, .slice []]),
          ("d", .map [("e", .float64 (.fin true 7205759403792794 1018))])]]⟩, false) :=
  ⟨by decide, by decide,
    ((C4_round_trip ⟨[[".dojo"]], []⟩
      ⟨⟨"Ada", "2024-01-01", "dirt_claude", 3, 0⟩,
        some [("cli_basics", ⟨"available", 2, 12, 40⟩), ("scripting", ⟨"locked", 0, 15, 0⟩)],
        some [], some "2024-01-05", ⟨"slow", none, some ["ls"]⟩⟩
      ⟨⟨true, some "2024-01-02T09:00:00Z", none, some "cli-basics", "practice"⟩,
        ⟨none, some "no such file", 2, true, 1⟩, ⟨"socratic", 3, none, 1⟩,
        ⟨some "cli-basics", none, 4, 12, some ["pwd", "ls"]⟩,
        some [none, some [("a", .str "x"), ("b", .float64 (.fin false 6755399441055744 1022)),
          ("c", .slice [.nil, .bool true, .slice []]),
          ("d", .map [("e", .float64 (.fin true 7205759403792794 1018))])]]⟩).1
      (by decide) (by decide)).2,
    ((C4_round_trip ⟨[[".dojo"]], []⟩
      ⟨⟨"Ada", "2024-01-01", "dirt_claude", 3, 0⟩,
        some [("cli_basics", ⟨"available", 2, 12, 40⟩), ("scripting", ⟨"locked", 0, 15, 0⟩)],
        some [], some "2024-01-05", ⟨"slow", none, some ["ls"]⟩⟩
      ⟨⟨true, some "2024-01-02T09:00:00Z", none, some "cli-basics", "practice"⟩,
        ⟨none, some "no such file", 2, true, 1⟩, ⟨"socratic", 3, none, 1⟩,
        ⟨some "cli-basics", none, 4, 12, some ["pwd", "ls"]⟩,
        some [none, some [("a", .str "x"), ("b", .float64 (.fin false 6755399441055744 1022)),
          ("c", .slice [.nil, .bool true, .slice []]),
          ("d", .map [("e", .float64 (.fin true 7205759403792794 1018))])]]⟩).2
      (by decide) (by decide)).2⟩

/-! ## The claim about the overlay of `learn` -/

theorem lessonDocument_WF (c : ClaudeIntegration) (topic : String) (h : c.WF = true) :
    (lessonDocument c topic).WF = true := by
  rw [claude_WF_iff] at h ⊢
  obtain ⟨h1, h2, h3, h4⟩ := h
  unfold lessonDocument
  split
  · exact ⟨h1, h2, ⟨h3.1, rfl⟩, h4⟩
  · exact ⟨h1, h2, h3, h4⟩

theorem startLesson_passed (fs : FS) (p : Progress) (f : Foundation) (topic : String)
    (t1 t2 : Time) (h : loadProgress fs = (p, false))
    (hf : mapIndex p.Foundations topic = some f) (hl : f.Status ≠ "locked") :
    (startLesson fs topic t1 t2).1 =
      logEvent (saveClaudeIntegration fs (lessonDocument (loadClaudeIntegration fs).1 topic)).1
        t2 (lessonEvent p topic t1) := by
  simp only [startLesson, h, hf, hl, if_false]
  split <;> rfl

theorem lessonDocument_frame (d : ClaudeIntegration) (topic : String) :
    (lessonDocument d topic).Session.Active = d.Session.Active ∧
    (lessonDocument d topic).Session.StartTime = d.Session.StartTime ∧
    (lessonDocument d topic).Session.CurrentLesson = d.Session.CurrentLesson ∧
    (lessonDocument d topic).Session.LearningMode = d.Session.LearningMode ∧
    (lessonDocument d topic).UserState = d.UserState ∧
    (lessonDocument d topic).ClaudeBehavior = d.ClaudeBehavior ∧
    (lessonDocument d topic).LessonContext.CurrentStep = d.LessonContext.CurrentStep ∧
    (lessonDocument d topic).EventLog = d.EventLog ∧
    (lessonDocument d topic).Session.CurrentTopic = some topic ∧
    (lessonDocument d topic).LessonContext.Topic = some topic := by
  unfold lessonDocument
  split <;> exact ⟨rfl, rfl, rfl, rfl, rfl, rfl, rfl, rfl, rfl, rfl⟩

/-- What `loadClaudeIntegration` returns when the file is absent or does not
hold a JSON text: the zero value. -/
theorem loadClaudeIntegration_unreadable (fs : FS)
    (h : fs.ReadFile ClaudeFile = none ∨ ∃ b, fs.ReadFile ClaudeFile = some (.invalid b)) :
    (loadClaudeIntegration fs).1 = ClaudeIntegration.zero := by
  rcases h with h0 | ⟨b, h0⟩ <;> simp [loadClaudeIntegration, h0, unmarshalClaude]

/-- C10 (as stated, refuted): after `init`, let the assistant-integration file
hold a JSON text with a type mismatch, `session.learning_mode` being the number
5 next to `session.active = true`. The document cannot be loaded
(`loadClaudeIntegration` returns an error), `learn cli_basics` returns
normally, and the document it writes has `session.active = true`: the decoder
had filled the fields before and after the mismatch, so `startLesson` did not
proceed with a zero-value document. The document it writes has
`session.learning_mode = ""`, which is not the stored 5: it does not agree with
the stored document on `session.learning_mode` either. -/
theorem C10_counterexample :
    (loadClaudeIntegration
      ((initializeDojo FS.empty "Ada\n"
        jan1).1.WriteFile ClaudeFile
        (.doc (.obj [("session", .obj [("active", .bool true),
            ("learning_mode", .num (.int false 5))]),
          ("lesson_context", .obj [("objective", .str "o")])]))).1).2 = true ∧
    (startLesson
      ((initializeDojo FS.empty "Ada\n"
        jan1).1.WriteFile ClaudeFile
        (.doc (.obj [("session", .obj [("active", .bool true),
            ("learning_mode", .num (.int false 5))]),
          ("lesson_context", .obj [("objective", .str "o")])]))).1
      "cli_basics" jan2
      jan2).2 = .success ∧
    (loadClaudeIntegration (startLesson
      ((initializeDojo FS.empty "Ada\n"
        jan1).1.WriteFile ClaudeFile
        (.doc (.obj [("session", .obj [("active", .bool true),
            ("learning_mode", .num (.int false 5))]),
          ("lesson_context", .obj [("objective", .str "o")])]))).1
      "cli_basics" jan2
      jan2).1).1.Session.Active = true ∧
    (loadClaudeIntegration (startLesson
      ((initializeDojo FS.empty "Ada\n"
        jan1).1.WriteFile ClaudeFile
        (.doc (.obj [("session", .obj [("active", .bool true),
            ("learning_mode", .num (.int false 5))]),
          ("lesson_context", .obj [("objective", .str "o")])]))).1
      "cli_basics" jan2
      jan2).1).1.Session.Active ≠
      ClaudeIntegration.zero.Session.Active ∧
    (startLesson
      ((initializeDojo FS.empty "Ada\n"
        jan1).1.WriteFile ClaudeFile
        (.doc (.obj [("session", .obj [("active", .bool true),
            ("learning_mode", .num (.int false 5))]),
          ("lesson_context", .obj [("objective", .str "o")])]))).1
      "cli_basics" jan2
      jan2).1.ReadFile ClaudeFile =
      some (.doc (.obj [
        ("session", .obj [("active", .bool true), ("start_time", .null),
          ("current_lesson", .null), ("current_topic", .str "cli_basics"),
          ("learning_mode", .str "")]),
        ("user_state", marshalUserState ClaudeUserState.zero),
        ("claude_behavior", marshalBehavior ClaudeBehavior.zero),
        ("lesson_context", .obj [("topic", .str "cli_basics"), ("objective", .str "o"),
          ("current_step", .num (.int false 0)), ("total_steps", .num (.int false 0)),
          ("key_concepts", .null)]),
        ("event_log", .null)])) := by
  refine ⟨by decide, by decide, by decide, by decide, rfl⟩

/-- C10 (amended): `learn` only overlays topic, objective and step fields. Let
the progress document be loadable, the topic pass the lookup and lock checks
and the assistant-integration file be writable. Let `d` be the stored
assistant-integration document: the file holds what `saveClaudeIntegration`
writes for `d` (`d` a document of the round trip of C4), or the file is absent
or does not hold a JSON text and `d` is the zero value. Then `startLesson`
writes the overlay of `d`; the written document loads without error and agrees
with `d` on `session.active`, `session.start_time`, `session.current_lesson`,
`session.learning_mode`, every `user_state` field, every `claude_behavior`
field, `lesson_context.current_step` and `event_log`, and has
`session.current_topic` and `lesson_context.topic` set to the topic. -/
theorem C10_learn_overlays (fs : FS) (topic : String) (t1 t2 : Time) (f : Foundation)
    (d : ClaudeIntegration) (j : Json)
    (h : (loadProgress fs).2 = false)
    (hf : mapIndex (loadProgress fs).1.Foundations topic = some f)
    (hl : f.Status ≠ "locked") (hw : fs.canWrite ClaudeFile = true)
    (hd : (d.WF = true ∧ marshalClaude d = some j ∧
          fs.ReadFile ClaudeFile = some (.doc j)) ∨
        (d = ClaudeIntegration.zero ∧
          (fs.ReadFile ClaudeFile = none ∨ ∃ b, fs.ReadFile ClaudeFile = some (.invalid b)))) :
    (∃ data, marshalClaude (lessonDocument d topic) = some data ∧
      (startLesson fs topic t1 t2).1.ReadFile ClaudeFile = some (.doc data)) ∧
    (loadClaudeIntegration (startLesson fs topic t1 t2).1).2 = false ∧
    (loadClaudeIntegration (startLesson fs topic t1 t2).1).1.Session.Active =
      d.Session.Active ∧
    (loadClaudeIntegration (startLesson fs topic t1 t2).1).1.Session.StartTime =
      d.Session.StartTime ∧
    (loadClaudeIntegration (startLesson fs topic t1 t2).1).1.Session.CurrentLesson =
      d.Session.CurrentLesson ∧
    (loadClaudeIntegration (startLesson fs topic t1 t2).1).1.Session.LearningMode =
      d.Session.LearningMode ∧
    (loadClaudeIntegration (startLesson fs topic t1 t2).1).1.UserState = d.UserState ∧
    (loadClaudeIntegration (startLesson fs topic t1 t2).1).1.ClaudeBehavior =
      d.ClaudeBehavior ∧
    (loadClaudeIntegration (startLesson fs topic t1 t2).1).1.LessonContext.CurrentStep =
      d.LessonContext.CurrentStep ∧
    (loadClaudeIntegration (startLesson fs topic t1 t2).1).1.EventLog = d.EventLog ∧
    (loadClaudeIntegration (startLesson fs topic t1 t2).1).1.Session.CurrentTopic =
      some topic ∧
    (loadClaudeIntegration (startLesson fs topic t1 t2).1).1.LessonContext.Topic =
      some topic := by
  rcases hp : loadProgress fs with ⟨p, e⟩
  rw [hp] at h hf
  simp only at h hf
  subst h
  have hload0 : (loadClaudeIntegration fs).1 = d ∧ d.WF = true := by
    rcases hd with ⟨h1, h2, h3⟩ | ⟨h1, h2⟩
    · rw [loadClaudeIntegration_of_file fs d j h3 h2 h1]
      exact ⟨rfl, h1⟩
    · rw [loadClaudeIntegration_unreadable fs h2, h1]
      exact ⟨rfl, rfl⟩
  have hfs := startLesson_passed fs p f topic t1 t2 hp hf hl
  rw [hload0.1] at hfs
  have hwf := lessonDocument_WF d topic hload0.2
  obtain ⟨data, hm, _⟩ := storeClaude_marshal _ hwf
  have hread : (startLesson fs topic t1 t2).1.ReadFile ClaudeFile = some (.doc data) := by
    rw [hfs, logEvent_ReadFile_ne _ _ _ _ (eventFile_ne_ClaudeFile t2).symm,
      saveClaudeIntegration_some _ _ _ hm, ReadFile_WriteFile_self _ _ _ hw]
  have hload := loadClaudeIntegration_of_file _ _ _ hread hm hwf
  obtain ⟨a1, a2, a3, a4, a5, a6, a7, a8, a9, a10⟩ := lessonDocument_frame d topic
  refine ⟨⟨data, hm, hread⟩, ?_, ?_, ?_, ?_, ?_, ?_, ?_, ?_, ?_, ?_, ?_⟩
  · rw [hload]
  · rw [hload]; exact a1
  · rw [hload]; exact a2
  · rw [hload]; exact a3
  · rw [hload]; exact a4
  · rw [hload]; exact a5
  · rw [hload]; exact a6
  · rw [hload]; exact a7
  · rw [hload]; exact a8
  · rw [hload]; exact a9
  · rw [hload]; exact a10

/-- Witness for C10: `init`, `start`, then `learn cli_basics`. The stored
document is the one `start` wrote; its session fields are still there after
`learn`. -/
theorem C10_learn_overlays_witness :
    (loadProgress (startSession (initializeDojo FS.empty "Ada\n" jan1).1 jan2 jan2 jan2).1).2 =
      false ∧
    (startSession (initializeDojo FS.empty "Ada\n" jan1).1 jan2 jan2 jan2).1.ReadFile
        ClaudeFile =
      some (.doc (.obj [("session", marshalSession (sessionDocument jan2).Session),
        ("user_state", marshalUserState (sessionDocument jan2).UserState),
        ("claude_behavior", marshalBehavior (sessionDocument jan2).ClaudeBehavior),
        ("lesson_context", marshalLessonContext (sessionDocument jan2).LessonContext),
        ("event_log", .null)])) ∧
    (loadClaudeIntegration (startLesson
      (startSession (initializeDojo FS.empty "Ada\n" jan1).1 jan2 jan2 jan2).1
      "cli_basics" jan2later jan2later).1).1.Session.Active = true ∧
    (loadClaudeIntegration (startLesson
      (startSession (initializeDojo FS.empty "Ada\n" jan1).1 jan2 jan2 jan2).1
      "cli_basics" jan2later jan2later).1).1.Session.StartTime =
      some "2024-01-02T09:00:00Z" :=
  ⟨by decide, rfl,
    (C10_learn_overlays
      (startSession (initializeDojo FS.empty "Ada\n" jan1).1 jan2 jan2 jan2).1
      "cli_basics" jan2later jan2later ⟨"available", 0, 12, 0⟩ (sessionDocument jan2)
      (.obj [("session", marshalSession (sessionDocument jan2).Session),
        ("user_state", marshalUserState (sessionDocument jan2).UserState),
        ("claude_behavior", marshalBehavior (sessionDocument jan2).ClaudeBehavior),
        ("lesson_context", marshalLessonContext (sessionDocument jan2).LessonContext),
        ("event_log", .null)])
      (by decide) (by decide) (by decide) (by decide)
      (Or.inl ⟨by decide, rfl, rfl⟩)).2.2.1,
    (C10_learn_overlays
      (startSession (initializeDojo FS.empty "Ada\n" jan1).1 jan2 jan2 jan2).1
      "cli_basics" jan2later jan2later ⟨"available", 0, 12, 0⟩ (sessionDocument jan2)
      (.obj [("session", marshalSession (sessionDocument jan2).Session),
        ("user_state", marshalUserState (sessionDocument jan2).UserState),
        ("claude_behavior", marshalBehavior (sessionDocument jan2).ClaudeBehavior),
        ("lesson_context", marshalLessonContext (sessionDocument jan2).LessonContext),
        ("event_log", .null)])
      (by decide) (by decide) (by decide) (by decide)
      (Or.inl ⟨by decide, rfl, rfl⟩)).2.2.2.1⟩

end Dojo
